import Mathlib

/-!
Verification of the key-races scrape-to-report pipeline.

This file is a shallow embedding of the core of the repository
(src/key_races/model.py, providers/wikipedia.py, providers/ballotpedia.py,
and the post-processing filter in main.py) together with proofs of the
properties stated about it.  Python dictionaries become structures with
optional fields, Python truthiness is made explicit through helper
functions, network fetches become oracles passed as arguments, and the
exceptions a run can raise become an Except result.
-/

namespace KeyRaces

/-! ## Data model (src/key_races/model.py)

`Candidate.contact` is omitted: neither provider ever writes it, and no
claim mentions it. -/

/-- Candidate dataclass: name, optional party, optional website. -/
structure Candidate where
  name : String
  party : Option String := none
  website : Option String := none
  deriving Repr, DecidableEq

/-- Race dataclass.  `sources` is the source-kind to URL mapping (a fresh
race has an empty dict, and each provider writes a single key at most once
per race, so an insertion-ordered association list is an exact model). -/
structure Race where
  id : String
  cycle : Int
  office : String
  state : String
  district : Option String := none
  title : Option String := none
  election_date : Option String := none
  primary_date : Option String := none
  candidates : List Candidate := []
  sources : List (String × String) := []
  research_links : List String := []
  deriving Repr, DecidableEq

/-- FetchResult dataclass: one outcome per target. -/
structure FetchResult where
  race_id : String
  race : Race
  notes : List String := []
  errors : List String := []
  deriving Repr, DecidableEq

/-! ## Target descriptors

A target is one YAML entry of the target list.  Every field the providers
read is optional (`entry.get(...)` never raises).  `cycle` is `none` when
the entry has no cycle key, in which case the Python `int(None)` call raises a
TypeError.  The `wikipedia` sub-dictionary is modelled by `WikiSource`. -/

structure WikiSource where
  title : Option String := none
  url : Option String := none
  deriving Repr, DecidableEq

structure Target where
  id : Option String := none
  cycle : Option Int := none
  office : Option String := none
  state : Option String := none
  district : Option String := none
  wikipedia : Option WikiSource := none
  deriving Repr, DecidableEq

/-! ## Python semantics helpers -/

/-- Truthiness of an optional string: None and the empty string are falsy. -/
def pyTruthy : Option String → Bool
  | none => false
  | some s => s ≠ ""

/-- Python `a or b` for an optional string `a` and a string fallback `b`. -/
def pyOrStr (a : Option String) (b : String) : String :=
  match a with
  | some s => if s ≠ "" then s else b
  | none => b

/-- Python `str(x)` on an optional string value: Python renders None as "None". -/
def pyStr : Option String → String
  | none => "None"
  | some s => s

/-- Rendering of an optional integer inside an f-string. -/
def pyIntStr : Option Int → String
  | none => "None"
  | some n => toString n

/-- Python `int(x)` on an optional integer value: `int(None)` raises a TypeError.
The error string is the exception text the run aborts with. -/
def pyInt : Option Int → Except String Int
  | none => .error "TypeError: int() argument must be a string, a bytes-like object or a real number, not NoneType"
  | some n => .ok n

/-- Python \s restricted to the ASCII range (str.strip and the regexes
below; Python also accepts Unicode whitespace, which no claim exercises). -/
def isWSCh (c : Char) : Bool :=
  c = ' ' || c = '\t' || c = '\n' || c = '\r' || c = '\x0b' || c = '\x0c'

/-- Python `str.strip()`. -/
def pyStrip (s : String) : String :=
  String.mk (((s.toList.dropWhile isWSCh).reverse.dropWhile isWSCh).reverse)

/-- One literal being a leading part of a character list. -/
def isPrefixList : List Char → List Char → Bool
  | [], _ => true
  | _ :: _, [] => false
  | p :: ps, c :: cs => p = c && isPrefixList ps cs

/-- Substring containment over characters (the Python `in` operator on str). -/
def containsSub (needle : List Char) : List Char → Bool
  | [] => isPrefixList needle []
  | c :: cs => isPrefixList needle (c :: cs) || containsSub needle cs

/-- Python `str.replace(pat, repl)`: replace every non-overlapping occurrence,
left to right.  The counter argument skips the remaining characters of a
matched occurrence.  The empty pattern is never used by the sources. -/
def replaceAllGo (pat repl : List Char) : List Char → Nat → List Char
  | [], _ => []
  | c :: cs, 0 =>
    if pat ≠ [] ∧ isPrefixList pat (c :: cs) then
      repl ++ replaceAllGo pat repl cs (pat.length - 1)
    else c :: replaceAllGo pat repl cs 0
  | _ :: cs, k + 1 => replaceAllGo pat repl cs k

def pyReplace (s pat repl : String) : String :=
  String.mk (replaceAllGo pat.toList repl.toList s.toList 0)

/-- Python `str.lower()` for the ASCII range (String.toLower is not used
because the core implementation does not reduce inside the kernel; the
Unicode case mappings of Python are not exercised by any claim). -/
def pyLower (s : String) : String := String.mk (s.toList.map Char.toLower)

/-- Python `str.upper()`. -/
def pyUpper (s : String) : String := String.mk (s.toList.map Char.toUpper)

/-- Python `str.startswith(pre)`. -/
def startsWithStr (s pre : String) : Bool := isPrefixList pre.toList s.toList

/-- UTF-8 bytes of one character (the encoding `urllib.parse.quote` works over). -/
def utf8Bytes (c : Char) : List Nat :=
  let n := c.toNat
  if n < 0x80 then [n]
  else if n < 0x800 then [0xC0 + n / 0x40, 0x80 + n % 0x40]
  else if n < 0x10000 then [0xE0 + n / 0x1000, 0x80 + (n / 0x40) % 0x40, 0x80 + n % 0x40]
  else [0xF0 + n / 0x40000, 0x80 + (n / 0x1000) % 0x40, 0x80 + (n / 0x40) % 0x40, 0x80 + n % 0x40]

def hexDigit (n : Nat) : Char :=
  if n < 10 then Char.ofNat (48 + n) else Char.ofNat (55 + n)

/-- Encoding of `requests.utils.quote` on one byte: the unreserved characters and the
default safe character "/" pass through, everything else is percent-encoded
with uppercase hex. -/
def quoteByte (n : Nat) : List Char :=
  let c := Char.ofNat n
  if ('A' ≤ c && c ≤ 'Z') || ('a' ≤ c && c ≤ 'z') || ('0' ≤ c && c ≤ '9')
     || c = '_' || c = '.' || c = '-' || c = '~' || c = '/' then [c]
  else ['%', hexDigit (n / 16), hexDigit (n % 16)]

/-- Full `requests.utils.quote(s)` (urllib.parse.quote with its default safe set). -/
def pyQuote (s : String) : String :=
  String.mk ((s.toList.foldr (fun c acc => utf8Bytes c ++ acc) []).foldr
    (fun b acc => quoteByte b ++ acc) [])

/-! ## Regular expression transcriptions

Each regular expression of the providers is transcribed as a direct
recursive matcher over the character list, `re.search` becoming a scan of
start positions left to right.  Where a greedy repetition is followed by a
character class disjoint from it (letters before whitespace, digits before
a comma), maximal munch is equivalent to the backtracking semantics and is
used directly; the optional groups of the Ballotpedia date patterns are
tried greedily first with an explicit fallback. -/

def isUpperAlpha (c : Char) : Bool := 'A' ≤ c && c ≤ 'Z'
def isLowerAlpha (c : Char) : Bool := 'a' ≤ c && c ≤ 'z'
def isDigitCh (c : Char) : Bool := '0' ≤ c && c ≤ '9'

/-- Longest leading run satisfying `p`, and the rest. -/
def takeWhileCh (p : Char → Bool) : List Char → List Char × List Char
  | [] => ([], [])
  | c :: cs =>
    if p c then
      let r := takeWhileCh p cs
      (c :: r.1, r.2)
    else ([], c :: cs)

/-- Match a literal at the head, returning the rest. -/
def matchLit : List Char → List Char → Option (List Char)
  | [], cs => some cs
  | _ :: _, [] => none
  | p :: ps, c :: cs => if p = c then matchLit ps cs else none

/-- Match a literal at the head case-insensitively, returning the matched
original characters and the rest. -/
def matchLitCI : List Char → List Char → Option (List Char × List Char)
  | [], cs => some ([], cs)
  | _ :: _, [] => none
  | p :: ps, c :: cs =>
    if p.toLower = c.toLower then
      match matchLitCI ps cs with
      | some (m, r) => some (c :: m, r)
      | none => none
    else none

/-- Pattern `[A-Z][a-z]+\s+\d\x7b1,2\x7d,\s+\d\x7b4\x7d` matched at the head
("Month Day, Year"), returning the matched text. -/
def matchDateFullAt (cs : List Char) : Option (List Char) :=
  match cs with
  | [] => none
  | c :: rest =>
    if isUpperAlpha c then
      let low := takeWhileCh isLowerAlpha rest
      if low.1.isEmpty then none else
      let sp1 := takeWhileCh isWSCh low.2
      if sp1.1.isEmpty then none else
      let ds := takeWhileCh isDigitCh sp1.2
      if ds.1.length = 0 ∨ 2 < ds.1.length then none else
      match ds.2 with
      | ',' :: r4 =>
        let sp2 := takeWhileCh isWSCh r4
        if sp2.1.isEmpty then none else
        let ys := takeWhileCh isDigitCh sp2.2
        if ys.1.length < 4 then none else
        some (c :: low.1 ++ sp1.1 ++ ds.1 ++ [','] ++ sp2.1 ++ ys.1.take 4)
      | _ => none
    else none

/-- Pattern `[A-Z][a-z]+\s+\d\x7b4\x7d` matched at the head ("Month Year"). -/
def matchDateMYAt (cs : List Char) : Option (List Char) :=
  match cs with
  | [] => none
  | c :: rest =>
    if isUpperAlpha c then
      let low := takeWhileCh isLowerAlpha rest
      if low.1.isEmpty then none else
      let sp1 := takeWhileCh isWSCh low.2
      if sp1.1.isEmpty then none else
      let ys := takeWhileCh isDigitCh sp1.2
      if ys.1.length < 4 then none else
      some (c :: low.1 ++ sp1.1 ++ ys.1.take 4)
    else none

def searchDateFull : List Char → Option String
  | [] => none
  | c :: cs =>
    match matchDateFullAt (c :: cs) with
    | some m => some (String.mk m)
    | none => searchDateFull cs

def searchDateMY : List Char → Option String
  | [] => none
  | c :: cs =>
    match matchDateMYAt (c :: cs) with
    | some m => some (String.mk m)
    | none => searchDateMY cs

/-- WikipediaProvider._extract_date: first "Month Day, Year", else first
"Month Year", else None. -/
def extractDate (text : String) : Option String :=
  match searchDateFull text.toList with
  | some d => some d
  | none => searchDateMY text.toList

/-- Test `re.search(r"(Election|General) date", text, re.I)` viewed as a boolean:
the alternation followed by the literal " date", case-insensitively. -/
def hasElectionDateLabel (text : String) : Bool :=
  let lcs := (pyLower text).toList
  containsSub "election date".toList lcs || containsSub "general date".toList lcs

/-- Test `re.search(r"Primary date|Primary", text, re.I)` viewed as a boolean. -/
def hasPrimaryLabel (text : String) : Bool :=
  let lcs := (pyLower text).toList
  containsSub "primary date".toList lcs || containsSub "primary".toList lcs

/-- Pattern `\(([^)]+)\)` matched at the head: an opening parenthesis, one or more
characters other than a closing parenthesis, a closing parenthesis. -/
def parenAt (cs : List Char) : Option (List Char) :=
  match cs with
  | '(' :: rest =>
    let body := takeWhileCh (fun c => c ≠ ')') rest
    match body.2 with
    | ')' :: _ => if body.1.isEmpty then none else some body.1
    | _ => none
  | _ => none

/-- Search `re.search(r"\(([^)]+)\)", text)`: the first parenthesized group. -/
def firstParenGroup : List Char → Option String
  | [] => none
  | c :: cs =>
    match parenAt (c :: cs) with
    | some b => some (String.mk b)
    | none => firstParenGroup cs

/-- Python `re.split(seps, text)[0]` for a list of literal separator alternatives:
the text before the earliest occurrence of any separator. -/
def splitFirstSeg (seps : List (List Char)) : List Char → List Char
  | [] => []
  | c :: cs =>
    if seps.any (fun sep => isPrefixList sep (c :: cs)) then []
    else c :: splitFirstSeg seps cs

/-! ### Ballotpedia date patterns

`Primary\s+(?:election\s+)?(?:date|day)?:?\s*([A-Z][a-z]+\s+\d\x7b1,2\x7d,\s+\d\x7b4\x7d)`
and the same with the label "General".  The optional groups are tried with
the alternative consumed first, falling back to skipping it, exactly the
greedy order of the regex engine. -/

/-- Tail `\s*` then the captured date. -/
def bpCap (cs : List Char) : Option String :=
  let sp := takeWhileCh isWSCh cs
  (matchDateFullAt sp.2).map String.mk

/-- Tail `:?` then `bpCap`. -/
def bpTail3 (cs : List Char) : Option String :=
  match cs with
  | ':' :: r => (bpCap r).orElse (fun _ => bpCap cs)
  | _ => bpCap cs

/-- Tail `(?:date|day)?` then `bpTail3`. -/
def bpTail2 (cs : List Char) : Option String :=
  ((matchLit "date".toList cs).bind bpTail3).orElse (fun _ =>
    ((matchLit "day".toList cs).bind bpTail3).orElse (fun _ => bpTail3 cs))

/-- Tail `(?:election\s+)?` then `bpTail2`. -/
def bpTail1 (cs : List Char) : Option String :=
  (match matchLit "election".toList cs with
   | some r =>
     let sp := takeWhileCh isWSCh r
     if sp.1.isEmpty then none else bpTail2 sp.2
   | none => none).orElse (fun _ => bpTail2 cs)

/-- The whole pattern anchored at the head: the label, `\s+`, then the tail. -/
def bpDateAt (label : List Char) (cs : List Char) : Option String :=
  match matchLit label cs with
  | some r =>
    let sp := takeWhileCh isWSCh r
    if sp.1.isEmpty then none else bpTail1 sp.2
  | none => none

/-- Search of the whole pattern: scan start positions left to right. -/
def bpDateSearch (label : List Char) : List Char → Option String
  | [] => none
  | c :: cs =>
    match bpDateAt label (c :: cs) with
    | some d => some d
    | none => bpDateSearch label cs

/-! ### Ballotpedia ratings patterns (BallotpediaProvider._extract_ratings_text) -/

/-- Class `[DRI]` under re.I. -/
def isDRI (c : Char) : Bool := c.toLower = 'd' || c.toLower = 'r' || c.toLower = 'i'

/-- One rating category matched at the head, case-insensitively, returning
the matched original text: `Toss[-\s]?up|Lean\s+[DRI]|Likely\s+[DRI]|Safe\s+[DRI]`
(alternatives tried in that order). -/
def categoryAt (cs : List Char) : Option (List Char) :=
  (match matchLitCI "toss".toList cs with
   | some (m, r) =>
     (match r with
      | c :: r2 =>
        if c = '-' || isWSCh c then
          match matchLitCI "up".toList r2 with
          | some (m2, _) => some (m ++ c :: m2)
          | none =>
            match matchLitCI "up".toList r with
            | some (m2, _) => some (m ++ m2)
            | none => none
        else
          match matchLitCI "up".toList r with
          | some (m2, _) => some (m ++ m2)
          | none => none
      | [] => none)
   | none => none).orElse (fun _ =>
  (match matchLitCI "lean".toList cs with
   | some (m, r) =>
     let sp := takeWhileCh isWSCh r
     if sp.1.isEmpty then none else
     match sp.2 with
     | d :: _ => if isDRI d then some (m ++ sp.1 ++ [d]) else none
     | [] => none
   | none => none).orElse (fun _ =>
  (match matchLitCI "likely".toList cs with
   | some (m, r) =>
     let sp := takeWhileCh isWSCh r
     if sp.1.isEmpty then none else
     match sp.2 with
     | d :: _ => if isDRI d then some (m ++ sp.1 ++ [d]) else none
     | [] => none
   | none => none).orElse (fun _ =>
  match matchLitCI "safe".toList cs with
  | some (m, r) =>
    let sp := takeWhileCh isWSCh r
    if sp.1.isEmpty then none else
    match sp.2 with
    | d :: _ => if isDRI d then some (m ++ sp.1 ++ [d]) else none
    | [] => none
  | none => none)))

/-- One outlet name matched at the head, case-insensitively:
`Cook|Inside Elections|Sabato` (the alternatives have distinct first
letters, so the order never matters at one position). -/
def outletAt (cs : List Char) : Option (List Char × List Char) :=
  (matchLitCI "cook".toList cs).orElse (fun _ =>
    (matchLitCI "inside elections".toList cs).orElse (fun _ =>
      matchLitCI "sabato".toList cs))

/-- The lazy gap `.*?` before the category: the first category occurrence
scanning forward, where `.` does not cross a newline (re.DOTALL is not set). -/
def categoryScan : List Char → Option (List Char)
  | [] => none
  | c :: cs =>
    match categoryAt (c :: cs) with
    | some m => some m
    | none => if c = '\n' then none else categoryScan cs

/-- Search `re.search(r"(Cook|Inside Elections|Sabato).*?(Toss...|...)", text, re.I)`:
the leftmost outlet having a category after it with no intervening newline,
with both groups returned as matched in the original text. -/
def ratingsSearch : List Char → Option (String × String)
  | [] => none
  | c :: cs =>
    match outletAt (c :: cs) with
    | some (om, rest) =>
      match categoryScan rest with
      | some cm => some (String.mk om, String.mk cm)
      | none => ratingsSearch cs
    | none => ratingsSearch cs

/-- Pattern `Race\s+ratings?:` matched at the head, then `\s*` and the category. -/
def raceRatingAt (cs : List Char) : Option (List Char) :=
  match matchLitCI "race".toList cs with
  | some (_, r) =>
    let sp := takeWhileCh isWSCh r
    if sp.1.isEmpty then none else
    match matchLitCI "rating".toList sp.2 with
    | some (_, r2) =>
      let afterS :=
        match r2 with
        | c :: r3 => if c.toLower = 's' then r3 else r2
        | [] => r2
      match afterS with
      | ':' :: r4 =>
        let sp2 := takeWhileCh isWSCh r4
        categoryAt sp2.2
      | _ => none
    | none => none
  | none => none

def raceRatingSearch : List Char → Option (List Char)
  | [] => none
  | c :: cs =>
    match raceRatingAt (c :: cs) with
    | some m => some m
    | none => raceRatingSearch cs

/-- BallotpediaProvider._extract_ratings_text. -/
def extractRatingsText (text : String) : Option String :=
  match ratingsSearch text.toList with
  | some (outlet, cat) => some (outlet ++ ": " ++ cat)
  | none =>
    match raceRatingSearch text.toList with
    | some m => some (String.mk m)
    | none => none

/-! ### Ballotpedia table cell split: `re.split(r"\s\x7b2,\x7d|\s–\s|\s-\s", cell)[0]` -/

/-- Whether one of the separator alternatives matches at this position:
two or more whitespace characters, or a dash between single whitespace. -/
def bpCellSepHere (cs : List Char) : Bool :=
  match cs with
  | a :: b :: rest =>
    (isWSCh a && isWSCh b) ||
    (isWSCh a && (b = '–' || b = '-') &&
      (match rest with | c :: _ => isWSCh c | [] => false))
  | _ => false

def bpFirstSeg : List Char → List Char
  | [] => []
  | c :: cs => if bpCellSepHere (c :: cs) then [] else c :: bpFirstSeg cs

/-! ## Parsed-markup models

BeautifulSoup accessors are modelled by structures holding exactly what the
providers read from a page.  `LI.text` is `li.get_text(" ", strip=True)`;
`LI.firstBoldStrong` is the text of `li.find(["b", "strong"])` when that tag
exists, `LI.firstA` the text of `li.find("a")`; `LI.hrefs` are the href
attributes of the anchors of the item in document order (anchors with no
href attribute contribute nothing, since `a.get("href")` is None and the
code skips falsy hrefs; a found tag is taken as truthy).  A heading records
the result of `find_next` from it. -/

structure LI where
  text : String
  firstBoldStrong : Option String := none
  firstA : Option String := none
  hrefs : List String := []
  deriving Repr, DecidableEq

structure UList where
  lis : List LI
  deriving Repr, DecidableEq

structure WHeading where
  text : String
  nextList : Option UList := none
  deriving Repr, DecidableEq

/-- One parsed Wikipedia page: the title tag text, the row texts of the
infobox when a tag with class infobox exists (`find_all(["tr","div","p"])`
over it), the h2/h3/h4 headings in document order, and all ul tags of the
page in document order. -/
structure WikiDoc where
  titleTag : Option String := none
  infoboxRows : Option (List String) := none
  headings : List WHeading := []
  uls : List UList := []
  deriving Repr, DecidableEq

/-! ## WikipediaProvider extraction -/

/-- WikipediaProvider._parse_candidate_li.  The name falls back to the text
before the first " â€“ " or " - " separator (the en-dash alternative is the
UTF-8 mojibake spelled in the source). -/
def parseCandidateLiW (li : LI) : Option Candidate :=
  if li.text = "" then none else
  let b : Option String :=
    match li.firstBoldStrong with
    | some t => some t
    | none => li.firstA
  let name : String := match b with | some t => t | none => ""
  let name :=
    if name = "" then
      pyStrip (String.mk (splitFirstSeg [" â€“ ".toList, " - ".toList] li.text.toList))
    else name
  let party := firstParenGroup li.text.toList
  let website := li.hrefs.find? (fun h =>
    h ≠ "" && startsWithStr h "http" && !(startsWithStr h "https://en.wikipedia.org"))
  if name = "" then none
  else some { name := name, party := party, website := website }

/-- The fallback deduplication loop of _extract_candidates: a seen set of
lower-cased names and an output list preserving first-seen order. -/
def dedupGo : List Candidate → List String → List Candidate
  | [], _ => []
  | c :: cs, seen =>
    if pyLower c.name ∈ seen then dedupGo cs seen
    else c :: dedupGo cs (pyLower c.name :: seen)

def dedupByLowerName (cs : List Candidate) : List Candidate := dedupGo cs []

/-- WikipediaProvider._extract_candidates: every h2/h3/h4 heading whose
lower-cased text starts with "candidates" contributes the parsed items of
the list `find_next` reaches from it (no deduplication on this path); when
no heading produced a candidate, the first five ul tags whose direct items
number between 1 and 6 are parsed and the result deduplicated by
lower-cased name. -/
def extractCandidates (doc : WikiDoc) : List Candidate :=
  let headerCands := doc.headings.foldl (fun acc h =>
    if startsWithStr (pyLower h.text) "candidates" then
      match h.nextList with
      | some ul => acc ++ ul.lis.filterMap parseCandidateLiW
      | none => acc
    else acc) []
  if headerCands.isEmpty then
    let fallback := (doc.uls.take 5).foldl (fun acc ul =>
      if 0 < ul.lis.length ∧ ul.lis.length ≤ 6 then
        acc ++ ul.lis.filterMap parseCandidateLiW
      else acc) []
    dedupByLowerName fallback
  else headerCands

/-- The title block of _parse_wikipedia_html: set the race title from a
non-empty title tag. -/
def wikiTitlePhase (doc : WikiDoc) (res : FetchResult) : FetchResult :=
  match doc.titleTag with
  | some t =>
    if t ≠ "" then { res with race := { res.race with title := some (pyStrip t) } }
    else res
  | none => res

/-- One infobox row of the date block: a row matching the election label
pattern sets the election date, one matching the primary label pattern sets
the primary date (a row can do both; later rows overwrite earlier ones). -/
def wikiDatesRow (res : FetchResult) (text : String) : FetchResult :=
  if text = "" then res else
  let res :=
    if hasElectionDateLabel text then
      match extractDate text with
      | some d => { res with race := { res.race with election_date := some d } }
      | none => res
    else res
  if hasPrimaryLabel text then
    match extractDate text with
    | some d => { res with race := { res.race with primary_date := some d } }
    | none => res
  else res

/-- The infobox date block: runs only when an infobox tag was found. -/
def wikiDatesPhase (doc : WikiDoc) (res : FetchResult) : FetchResult :=
  match doc.infoboxRows with
  | none => res
  | some rows => rows.foldl wikiDatesRow res

/-- The candidate block: assign the extracted list when non-empty, else
append the no-candidates note. -/
def wikiCandsPhase (doc : WikiDoc) (res : FetchResult) : FetchResult :=
  let cands := extractCandidates doc
  if cands.isEmpty then
    { res with notes := res.notes ++ ["No candidates parsed; structure may differ"] }
  else
    { res with race := { res.race with candidates := cands } }

/-- WikipediaProvider._parse_wikipedia_html: title from the title tag, date
fields from infobox rows matching the label patterns, candidates from
_extract_candidates (with the no-candidates note when that list is
empty). -/
def parseWikipediaHtml (doc : WikiDoc) (res : FetchResult) : FetchResult :=
  wikiCandsPhase doc (wikiDatesPhase doc (wikiTitlePhase doc res))

/-- WikipediaProvider._research_queries: three Google query URLs built from
state, office, cycle and (when truthy) district. -/
def researchQueries (race : Race) : List String :=
  let label := race.state ++ " " ++ race.office ++ " " ++ toString race.cycle
  let label :=
    match race.district with
    | some d => if d ≠ "" then label ++ " district " ++ d else label
    | none => label
  ["https://www.google.com/search?q=Ballotpedia+" ++ pyQuote label,
   "https://www.google.com/search?q="
     ++ pyQuote (race.state ++ " Secretary of State elections calendar " ++ toString race.cycle),
   "https://www.google.com/search?q=" ++ pyQuote (label ++ " official candidate list")]

/-- WIKI_REST.format(title.replace(" ", "%20")). -/
def wikiRestUrl (title : String) : String :=
  "https://en.wikipedia.org/api/rest_v1/page/html/" ++ pyReplace title " " "%20"

/-! ## BallotpediaProvider extraction -/

structure BTable where
  rows : List (List String)
  deriving Repr, DecidableEq

structure BHeading where
  text : String
  nextList : Option UList := none
  nextTable : Option BTable := none
  deriving Repr, DecidableEq

/-- One parsed Ballotpedia page: title tag text, the flattened page text
(`soup.get_text(" ", strip=True)`), the h2/h3/h4 headings (each with the
list and table `find_next` reaches from it), and, when a span with id
External_links or External_links_2 exists, the hrefs of the anchors of its
parent element in document order (anchors with no href contribute an empty
string, which the code skips as falsy). -/
structure BallotDoc where
  titleTag : Option String := none
  bodyText : String := ""
  headings : List BHeading := []
  extLinksAnchors : Option (List String) := none
  deriving Repr, DecidableEq

/-- BallotpediaProvider._parse_candidate_li (no website harvesting; the
dash separators here are the proper en-dash and hyphen). -/
def parseCandidateLiB (li : LI) : Option Candidate :=
  if li.text = "" then none else
  let b : Option String :=
    match li.firstBoldStrong with
    | some t => some t
    | none => li.firstA
  let name : String := match b with | some t => t | none => ""
  let name :=
    if name = "" then
      pyStrip (String.mk (splitFirstSeg [" – ".toList, " - ".toList] li.text.toList))
    else name
  if name = "" then none
  else
    let party := firstParenGroup li.text.toList
    some { name := name, party := party }

/-- The table branch of the candidates loop: rows whose first cell mentions
"candidate" or "name" are skipped as headers; otherwise the first cell up
to the first wide separator is a candidate name, appended when non-empty
and not already present up to case. -/
def ballotTableRows (rows : List (List String)) (res : FetchResult) : FetchResult :=
  rows.foldl (fun res cells =>
    match cells with
    | [] => res
    | c0 :: _ =>
      if containsSub "candidate".toList (pyLower c0).toList
         || containsSub "name".toList (pyLower c0).toList then res
      else
        let name := pyStrip (String.mk (bpFirstSeg c0.toList))
        if name ≠ "" && res.race.candidates.all (fun c => pyLower c.name ≠ pyLower name) then
          { res with race := { res.race with
              candidates := res.race.candidates ++ [{ name := name }] } }
        else res) res

/-- The candidates loop of _parse_ballotpedia_html: the first heading
containing "candidate" that has a following list (parsed item by item with
no deduplication) or, failing that, a following table, stops the loop;
a matching heading with neither lets the loop continue. -/
def ballotCandLoop : List BHeading → FetchResult → FetchResult
  | [], res => res
  | h :: rest, res =>
    if containsSub "candidate".toList (pyLower h.text).toList then
      match h.nextList with
      | some ul =>
        ul.lis.foldl (fun res li =>
          match parseCandidateLiB li with
          | some c => { res with race := { res.race with
              candidates := res.race.candidates ++ [c] } }
          | none => res) res
      | none =>
        match h.nextTable with
        | some tbl => ballotTableRows tbl.rows res
        | none => ballotCandLoop rest res
    else ballotCandLoop rest res

/-- The title block of _parse_ballotpedia_html: the title tag text with the
trailing " - Ballotpedia" removed. -/
def bTitlePhase (doc : BallotDoc) (res : FetchResult) : FetchResult :=
  match doc.titleTag with
  | some t =>
    if t ≠ "" then
      { res with race := { res.race with
          title := some (pyStrip (pyReplace t " - Ballotpedia" "")) } }
    else res
  | none => res

/-- The date block: the primary and general patterns searched over the
flattened page text. -/
def bDatesPhase (doc : BallotDoc) (res : FetchResult) : FetchResult :=
  let res :=
    match bpDateSearch "Primary".toList doc.bodyText.toList with
    | some d => { res with race := { res.race with primary_date := some d } }
    | none => res
  match bpDateSearch "General".toList doc.bodyText.toList with
  | some d => { res with race := { res.race with election_date := some d } }
  | none => res

/-- The ratings block: a recognized rating is recorded as a note. -/
def bRatingsPhase (doc : BallotDoc) (res : FetchResult) : FetchResult :=
  match extractRatingsText doc.bodyText with
  | some r => { res with notes := res.notes ++ ["ratings: " ++ r] }
  | none => res

/-- One anchor of the external-links block: an href that is truthy and
starts with http is appended as a research link. -/
def bExtStep (res : FetchResult) (href : String) : FetchResult :=
  if href ≠ "" && startsWithStr href "http" then
    { res with race := { res.race with
        research_links := res.race.research_links ++ [href] } }
  else res

/-- The external-links block: up to six anchors of the External links
section parent, keeping the http ones as research links. -/
def bExtLinksPhase (doc : BallotDoc) (res : FetchResult) : FetchResult :=
  match doc.extLinksAnchors with
  | none => res
  | some links => (links.take 6).foldl bExtStep res

/-- BallotpediaProvider._parse_ballotpedia_html. -/
def parseBallotpediaHtml (doc : BallotDoc) (res : FetchResult) : FetchResult :=
  bExtLinksPhase doc (bRatingsPhase doc (ballotCandLoop doc.headings
    (bDatesPhase doc (bTitlePhase doc res))))

/-- STATE_ABBR of ballotpedia.py. -/
def STATE_ABBR : List (String × String) :=
  [("AL", "Alabama"), ("AK", "Alaska"), ("AZ", "Arizona"), ("AR", "Arkansas"),
   ("CA", "California"), ("CO", "Colorado"), ("CT", "Connecticut"), ("DE", "Delaware"),
   ("DC", "District of Columbia"), ("FL", "Florida"), ("GA", "Georgia"), ("HI", "Hawaii"),
   ("ID", "Idaho"), ("IL", "Illinois"), ("IN", "Indiana"), ("IA", "Iowa"),
   ("KS", "Kansas"), ("KY", "Kentucky"), ("LA", "Louisiana"), ("ME", "Maine"),
   ("MD", "Maryland"), ("MA", "Massachusetts"), ("MI", "Michigan"), ("MN", "Minnesota"),
   ("MS", "Mississippi"), ("MO", "Missouri"), ("MT", "Montana"), ("NE", "Nebraska"),
   ("NV", "Nevada"), ("NH", "New Hampshire"), ("NJ", "New Jersey"), ("NM", "New Mexico"),
   ("NY", "New York"), ("NC", "North Carolina"), ("ND", "North Dakota"), ("OH", "Ohio"),
   ("OK", "Oklahoma"), ("OR", "Oregon"), ("PA", "Pennsylvania"), ("RI", "Rhode Island"),
   ("SC", "South Carolina"), ("SD", "South Dakota"), ("TN", "Tennessee"), ("TX", "Texas"),
   ("UT", "Utah"), ("VT", "Vermont"), ("VA", "Virginia"), ("WA", "Washington"),
   ("WV", "West Virginia"), ("WI", "Wisconsin"), ("WY", "Wyoming")]

/-- Lookup `STATE_ABBR.get(abbr, abbr)`. -/
def lookupState (abbr : String) : String :=
  match STATE_ABBR.find? (fun p => p.1 = abbr) with
  | some p => p.2
  | none => abbr

/-- BallotpediaProvider._candidate_titles.  The GOVERNOR first phrasing
keeps the quirk of the source text: the f-string holds an underscore-space
before the cycle, the double-space replace does nothing, and the space
replace then yields a double underscore.  The HOUSE district title spells
the apostrophe-s of the source. -/
def candidateTitles (state_name office : String) (cycle : Int) (district : Option String) :
    List String :=
  let s := pyReplace state_name " " "_"
  let titles : List String :=
    if office = "PRESIDENT" then
      ["United_States_presidential_election,_" ++ toString cycle]
    else if office = "SENATE" then
      [toString cycle ++ "_United_States_Senate_election_in_" ++ s,
       "United_States_Senate_election_in_" ++ s ++ ",_" ++ toString cycle]
    else if office = "GOVERNOR" then
      [pyReplace (pyReplace (s ++ "_gubernatorial_election,_ " ++ toString cycle) "  " " ") " " "_",
       toString cycle ++ "_" ++ s ++ "_gubernatorial_election"]
    else if office = "HOUSE" then
      (if pyTruthy district then
        [toString cycle ++ "_United_States_House_of_Representatives_election_in_" ++ s
          ++ "\x27s_" ++ (match district with | some d => d | none => "")
          ++ "th_congressional_district"]
      else []) ++
      [toString cycle ++ "_United_States_House_of_Representatives_elections_in_" ++ s]
    else []
  titles ++ [toString cycle ++ "_elections_in_" ++ s]

/-! ## Orchestration (fetch_for_targets of both providers)

The network is an oracle argument.  For Wikipedia,
`fetch url = .ok doc` models a 200 response whose body parses to `doc`, and
`.error e` models `requests.get` or `raise_for_status` raising with text
`e`.  For Ballotpedia, `_get` returns the body on 200 and None otherwise,
and may raise: `get url = .ok (some doc)`, `.ok none`, `.error e`
respectively.  `polite_sleep` never affects the result and is not
modelled.  Each per-target step returns the outcome, the number of pages
its processing fetched successfully (what `pages_fetched` grows by), and
the list of URLs passed to the network in order — ghost instrumentation
used only to state how many fetch attempts a run performs. -/

/-- The success branch of the Wikipedia try block: parse, record the
source URL, then append the research queries. -/
def wikiSuccessOutcome (doc : WikiDoc) (fetchUrl : String) (res : FetchResult) : FetchResult :=
  let res := parseWikipediaHtml doc res
  let res := { res with race := { res.race with
      sources := res.race.sources ++ [("wikipedia", fetchUrl)] } }
  { res with race := { res.race with
      research_links := res.race.research_links ++ researchQueries res.race } }

/-- The except branch of the Wikipedia try block: record the fetch failure,
then append the research queries. -/
def wikiFailOutcome (e : String) (res : FetchResult) : FetchResult :=
  let res := { res with errors := res.errors ++ ["Fetch failed: " ++ e] }
  { res with race := { res.race with
      research_links := res.race.research_links ++ researchQueries res.race } }

/-- The body of the Wikipedia target loop for one entry (wikipedia.py,
WikipediaProvider.fetch_for_targets).  `.error` is the TypeError of
`int(entry.get("cycle"))` propagating out of the run. -/
def wikiProcessTarget (fetch : String → Except String WikiDoc) (t : Target) :
    Except String (FetchResult × Nat × List String) :=
  let wik : WikiSource := t.wikipedia.getD {}
  let title := wik.title
  let url := wik.url
  let raceId := pyOrStr t.id (pyOrStr title (pyOrStr url "unknown"))
  match pyInt t.cycle with
  | .error e => .error e
  | .ok cycle =>
    let race : Race :=
      { id := raceId, cycle := cycle, office := pyStr t.office, state := pyStr t.state,
        district := if pyTruthy t.district then t.district else none }
    let res : FetchResult := { race_id := raceId, race := race }
    if pyTruthy title = false ∧ pyTruthy url = false then
      .ok ({ res with errors := res.errors ++ ["No Wikipedia title or URL provided"] }, 0, [])
    else
      let fetchUrl :=
        if pyTruthy title then wikiRestUrl (match title with | some s => s | none => "")
        else (match url with | some s => s | none => "")
      match fetch fetchUrl with
      | .ok doc => .ok (wikiSuccessOutcome doc fetchUrl res, 1, [fetchUrl])
      | .error e => .ok (wikiFailOutcome e res, 0, [fetchUrl])

/-- The title trial loop of the Ballotpedia target body: each candidate
title is fetched in turn; an exception is recorded as a note and the next
title tried; a non-200 moves on silently; the first success is parsed and
stops the loop. -/
def ballotTryTitles (get : String → Except String (Option BallotDoc)) :
    List String → FetchResult → Nat → List String → FetchResult × Nat × List String × Bool
  | [], res, pf, att => (res, pf, att, false)
  | title :: rest, res, pf, att =>
    let url := "https://ballotpedia.org/" ++ title
    match get url with
    | .error e =>
      ballotTryTitles get rest
        { res with notes := res.notes ++ ["ballotpedia try failed: " ++ e] } pf (att ++ [url])
    | .ok none => ballotTryTitles get rest res pf (att ++ [url])
    | .ok (some doc) =>
      let pf := pf + 1
      let res := { res with race := { res.race with
          sources := res.race.sources ++ [("ballotpedia", url)] } }
      let res := parseBallotpediaHtml doc res
      (res, pf, att ++ [url], true)

/-- The end of the Ballotpedia target body: when no title fetch succeeded,
record the "No Ballotpedia page found" error. -/
def ballotWrapUp (res : FetchResult) (fetched : Bool) : FetchResult :=
  if fetched then res
  else { res with errors := res.errors ++ ["No Ballotpedia page found"] }

/-- The body of the Ballotpedia target loop for one entry (ballotpedia.py,
BallotpediaProvider.fetch_for_targets). -/
def ballotProcessTarget (get : String → Except String (Option BallotDoc)) (t : Target) :
    Except String (FetchResult × Nat × List String) :=
  let raceId := pyOrStr t.id (pyStr t.state ++ "-" ++ pyStr t.office ++ "-" ++ pyIntStr t.cycle)
  let stateAbbr := pyUpper (pyOrStr t.state "")
  let office := pyUpper (pyOrStr t.office "")
  match pyInt t.cycle with
  | .error e => .error e
  | .ok cycle =>
    let district := if pyTruthy t.district then t.district else none
    let stateName := lookupState stateAbbr
    let race : Race :=
      { id := raceId, cycle := cycle, office := office, state := stateAbbr, district := district }
    let res : FetchResult := { race_id := raceId, race := race }
    let titles := candidateTitles stateName office cycle district
    let r := ballotTryTitles get titles res 0 []
    .ok (ballotWrapUp r.1 r.2.2.2, r.2.1, r.2.2.1)

/-- The shared target loop of both providers: stop before a target when the
page budget is spent, abort the whole run when the body raises, otherwise
collect the outcome and keep going. -/
def providerLoop (proc : Target → Except String (FetchResult × Nat × List String))
    (maxPages : Nat) :
    List Target → Nat → List FetchResult → List String →
    Except String (List FetchResult × Nat × List String)
  | [], pf, acc, att => .ok (acc, pf, att)
  | t :: rest, pf, acc, att =>
    if maxPages ≤ pf then .ok (acc, pf, att)
    else
      match proc t with
      | .error e => .error e
      | .ok (res, d, a) => providerLoop proc maxPages rest (pf + d) (acc ++ [res]) (att ++ a)

/-- WikipediaProvider.fetch_for_targets, instrumented with the final page
counter and the attempted URLs. -/
def fetchForTargetsWiki (fetch : String → Except String WikiDoc) (maxPages : Nat)
    (targets : List Target) : Except String (List FetchResult × Nat × List String) :=
  providerLoop (wikiProcessTarget fetch) maxPages targets 0 [] []

/-- BallotpediaProvider.fetch_for_targets, instrumented the same way. -/
def fetchForTargetsBallot (get : String → Except String (Option BallotDoc)) (maxPages : Nat)
    (targets : List Target) : Except String (List FetchResult × Nat × List String) :=
  providerLoop (ballotProcessTarget get) maxPages targets 0 [] []

/-- Whether a run completed without raising. -/
def isOkE {α : Type} : Except String α → Bool
  | .ok _ => true
  | .error _ => false

/-- The payload of a completed run (a dummy for an aborted one); used to
state witness instances without binders. -/
def okParts (e : Except String (List FetchResult × Nat × List String)) :
    List FetchResult × Nat × List String :=
  match e with
  | .ok x => x
  | .error _ => ([], 0, [])

/-! ## Report filter (main.py) -/

/-- The _keep predicate of main.main: an outcome with any error is dropped;
otherwise it is kept iff candidates, election date or primary date is
truthy. -/
def keep (fr : FetchResult) : Bool :=
  if fr.errors.isEmpty = false then false
  else !fr.race.candidates.isEmpty
       || pyTruthy fr.race.election_date || pyTruthy fr.race.primary_date

/-- The include-empty switch around the filter in main.main. -/
def applyFilter (includeEmpty : Bool) (results : List FetchResult) : List FetchResult :=
  if includeEmpty then results else results.filter keep

/-! ## Exception flow of the extractor (wikipedia.py lines 41-57, 65-96)

_parse_wikipedia_html runs its sub-extractions (title, infobox dates,
candidates) as a straight statement sequence with no internal handler.  A
sub-extraction is modelled as a state transformer that returns the
FetchResult as mutated so far together with the text of an exception when
one was raised inside it (Python library calls inside a sub-extraction can
raise, e.g. a RecursionError from BeautifulSoup traversal of deeply nested
markup).  An exception propagates out of the extractor; the enclosing
per-target try of fetch_for_targets catches it and records
"Fetch failed: ..." on the outcome. -/

def ParseStep : Type := FetchResult → FetchResult × Option String

/-- Run a statement sequence under Python exception semantics: mutations
made before a raise are kept, statements after it never run. -/
def runSteps : List ParseStep → FetchResult → FetchResult × Option String
  | [], res => (res, none)
  | s :: rest, res =>
    match s res with
    | (res1, none) => runSteps rest res1
    | (res1, some e) => (res1, some e)

/-- The statement sequence of _parse_wikipedia_html: title extraction, then
infobox date extraction, then candidate extraction. -/
def parseWikipediaHtmlSteps (titleStep dateStep candStep : ParseStep) :
    FetchResult → FetchResult × Option String :=
  runSteps [titleStep, dateStep, candStep]

/-- The try/except around fetch-and-parse in
WikipediaProvider.fetch_for_targets, with the parse left as a possibly
raising step: a fetch failure or a parse exception lands in the same
handler, which appends "Fetch failed: ..." to the outcome; the page counter
grows before the parse runs, so a parse exception still consumes budget. -/
def wikiTryBlock (fetched : Except String WikiDoc)
    (parse : WikiDoc → ParseStep) (fetchUrl : String) (res : FetchResult) :
    FetchResult × Nat :=
  match fetched with
  | .error e => ({ res with errors := res.errors ++ ["Fetch failed: " ++ e] }, 0)
  | .ok doc =>
    match parse doc res with
    | (res1, none) =>
      ({ res1 with race := { res1.race with
          sources := res1.race.sources ++ [("wikipedia", fetchUrl)] } }, 1)
    | (res1, some e) =>
      ({ res1 with errors := res1.errors ++ ["Fetch failed: " ++ e] }, 1)

/-! ## Concrete fixtures used by the theorems -/

def cexRace : Race := { id := "r", cycle := 2024, office := "SENATE", state := "CA" }

def cexRes0 : FetchResult := { race_id := "r", race := cexRace }

def cexLiJane : LI := { text := "Jane Doe (D)", firstBoldStrong := some "Jane Doe" }

def cexLiJANE : LI := { text := "JANE DOE (D)", firstBoldStrong := some "JANE DOE" }

def cexLiJohn : LI := { text := "John Roe (R)", firstBoldStrong := some "John Roe" }

def cexUl : UList := { lis := [cexLiJane, cexLiJANE, cexLiJohn] }

def cexDocHeading : WikiDoc :=
  { headings := [{ text := "Candidates", nextList := some cexUl }], uls := [cexUl] }

def cexDocFallback : WikiDoc := { uls := [cexUl] }

def cexEmptyWDoc : WikiDoc := {}

def cexEmptyBDoc : BallotDoc := {}

def cexWikiTitleX : WikiSource := { title := some "X" }

def cexTargetW : Target :=
  { id := some "t", cycle := some 2024, office := some "SENATE", state := some "CA",
    wikipedia := some cexWikiTitleX }

def cexTargetNoCycle : Target :=
  { id := some "x", office := some "SENATE", state := some "CA",
    wikipedia := some cexWikiTitleX }

def cexTargetB : Target :=
  { id := some "b", cycle := some 2024, office := some "SENATE", state := some "CA" }

def cexTargetNoSrc : Target :=
  { id := some "n", cycle := some 2024, office := some "SENATE", state := some "CA" }

def fetch503 : String → Except String WikiDoc := fun _ => .error "503 Server Error"

def fetchEmptyDoc : String → Except String WikiDoc := fun _ => .ok {}

def getNon200 : String → Except String (Option BallotDoc) := fun _ => .ok none

def cexErrRes : FetchResult :=
  { race_id := "r", race := { cexRace with candidates := [{ name := "Jane Doe" }] },
    errors := ["Fetch failed: 503 Server Error"] }

def stepTitleOk : ParseStep :=
  fun r => ({ r with race := { r.race with title := some "T" } }, none)

def stepDateBoom : ParseStep :=
  fun r => (r, some "RecursionError: maximum recursion depth exceeded")

def stepCands : ParseStep :=
  fun r => ({ r with race := { r.race with candidates := [{ name := "Jane Doe" }] } }, none)

def cexR0 : FetchResult := { cexRes0 with race := { cexRes0.race with title := some "T" } }

/-! ## Helper lemmas -/

theorem getLastAppendSingleton {α : Type} (l : List α) (a : α) :
    (l ++ [a]).getLast? = some a :=
  List.getLast?_concat l

theorem appendSingletonNeNil {α : Type} (l : List α) (a : α) : l ++ [a] ≠ [] := by
  cases l <;> simp

theorem foldlInv {α β : Type} (P : α → Prop) (f : α → β → α)
    (hstep : ∀ a b, P a → P (f a b)) :
    ∀ (l : List β) (a : α), P a → P (l.foldl f a) := by
  intro l
  induction l with
  | nil => intro a h; exact h
  | cons x xs ih => intro a h; exact ih (f a x) (hstep a x h)

/-! ### Deduplication lemmas (the fallback loop of _extract_candidates) -/

theorem dedupGo_sublist : ∀ (cs : List Candidate) (seen : List String),
    List.Sublist (dedupGo cs seen) cs := by
  intro cs
  induction cs with
  | nil => intro seen; simp [dedupGo]
  | cons c cs ih =>
    intro seen
    rw [dedupGo]
    split
    · exact List.Sublist.cons c (ih seen)
    · exact List.Sublist.cons₂ c (ih (pyLower c.name :: seen))

theorem dedupGo_not_seen : ∀ (cs : List Candidate) (seen : List String) (c : Candidate),
    c ∈ dedupGo cs seen → pyLower c.name ∉ seen := by
  intro cs
  induction cs with
  | nil => intro seen c h; simp [dedupGo] at h
  | cons x cs ih =>
    intro seen c h
    rw [dedupGo] at h
    split at h
    · exact ih seen c h
    · rcases List.mem_cons.mp h with h1 | h2
      · subst h1
        intro hmem
        rename_i hns
        exact hns hmem
      · intro hmem
        exact ih _ c h2 (List.mem_cons_of_mem _ hmem)

theorem dedupGo_pairwise : ∀ (cs : List Candidate) (seen : List String),
    List.Pairwise (fun a b => pyLower a.name ≠ pyLower b.name) (dedupGo cs seen) := by
  intro cs
  induction cs with
  | nil => intro seen; simp [dedupGo]
  | cons c cs ih =>
    intro seen
    rw [dedupGo]
    split
    · exact ih seen
    · refine List.Pairwise.cons ?_ (ih (pyLower c.name :: seen))
      intro b hb heq
      exact dedupGo_not_seen cs _ b hb (heq ▸ List.mem_cons_self _ _)

/-! ### Frame lemmas for the Wikipedia parse phases -/

theorem wikiTitlePhase_frame (doc : WikiDoc) (res : FetchResult) :
    (wikiTitlePhase doc res).notes = res.notes ∧
    (wikiTitlePhase doc res).race.candidates = res.race.candidates := by
  unfold wikiTitlePhase
  refine ⟨?_, ?_⟩ <;> (repeat' split) <;> rfl

theorem wikiDatesRow_frame (res : FetchResult) (text : String) :
    (wikiDatesRow res text).notes = res.notes ∧
    (wikiDatesRow res text).race.candidates = res.race.candidates := by
  unfold wikiDatesRow
  repeat' split
  all_goals exact ⟨rfl, rfl⟩

theorem wikiDatesPhase_frame (doc : WikiDoc) (res : FetchResult) :
    (wikiDatesPhase doc res).notes = res.notes ∧
    (wikiDatesPhase doc res).race.candidates = res.race.candidates := by
  unfold wikiDatesPhase
  cases doc.infoboxRows with
  | none => exact ⟨rfl, rfl⟩
  | some rows =>
    exact foldlInv
      (fun a => a.notes = res.notes ∧ a.race.candidates = res.race.candidates)
      wikiDatesRow
      (fun a b hP => ⟨((wikiDatesRow_frame a b).1).trans hP.1,
                      ((wikiDatesRow_frame a b).2).trans hP.2⟩)
      rows res ⟨rfl, rfl⟩

/-! ### Generic lemmas about the shared target loop -/

theorem providerLoop_pf_le
    (proc : Target → Except String (FetchResult × Nat × List String)) (maxPages : Nat)
    (hproc : ∀ t r d a, proc t = .ok (r, d, a) → d ≤ 1) :
    ∀ (ts : List Target) (pf : Nat) (acc : List FetchResult) (att : List String)
      (res : List FetchResult) (pfF : Nat) (attF : List String),
      pf ≤ maxPages →
      providerLoop proc maxPages ts pf acc att = .ok (res, pfF, attF) →
      pfF ≤ maxPages := by
  intro ts
  induction ts with
  | nil =>
    intro pf acc att res pfF attF hle h
    rw [providerLoop] at h
    obtain ⟨-, h2, -⟩ := by simpa using h
    omega
  | cons t rest ih =>
    intro pf acc att res pfF attF hle h
    rw [providerLoop] at h
    split at h
    · obtain ⟨-, h2, -⟩ := by simpa using h
      omega
    · rcases hp : proc t with e | ⟨r, d, a⟩ <;> rw [hp] at h
      · exact absurd h (by simp)
      · have hd := hproc t r d a hp
        rename_i hlt
        exact ih (pf + d) (acc ++ [r]) (att ++ a) res pfF attF (by omega) h

theorem providerLoop_length
    (proc : Target → Except String (FetchResult × Nat × List String)) (maxPages : Nat) :
    ∀ (ts : List Target) (pf : Nat) (acc : List FetchResult) (att : List String)
      (res : List FetchResult) (pfF : Nat) (attF : List String),
      providerLoop proc maxPages ts pf acc att = .ok (res, pfF, attF) →
      acc.length ≤ res.length ∧ res.length ≤ acc.length + ts.length ∧
      (res.length < acc.length + ts.length → maxPages ≤ pfF) := by
  intro ts
  induction ts with
  | nil =>
    intro pf acc att res pfF attF h
    rw [providerLoop] at h
    obtain ⟨h1, -, -⟩ := by simpa using h
    subst h1
    refine ⟨Nat.le_refl _, by simp only [List.length_nil]; omega, by simp only [List.length_nil]; omega⟩
  | cons t rest ih =>
    intro pf acc att res pfF attF h
    rw [providerLoop] at h
    split at h
    · rename_i hbreak
      obtain ⟨h1, h2, -⟩ := by simpa using h
      subst h1
      refine ⟨Nat.le_refl _, by omega, fun _ => by omega⟩
    · rcases hp : proc t with e | ⟨r, d, a⟩ <;> rw [hp] at h
      · exact absurd h (by simp)
      · obtain ⟨h1, h2, h3⟩ := ih (pf + d) (acc ++ [r]) (att ++ a) res pfF attF h
        simp only [List.length_append, List.length_singleton] at h1 h2 h3
        simp only [List.length_cons]
        exact ⟨by omega, by omega, fun hlt => h3 (by omega)⟩

theorem providerLoop_take
    (proc : Target → Except String (FetchResult × Nat × List String)) (maxPages : Nat) :
    ∀ (ts : List Target) (pf : Nat) (acc : List FetchResult) (att : List String)
      (res : List FetchResult) (pfF : Nat) (attF : List String),
      providerLoop proc maxPages ts pf acc att = .ok (res, pfF, attF) →
      providerLoop proc maxPages (ts.take (res.length - acc.length)) pf acc att =
        .ok (res, pfF, attF) := by
  intro ts
  induction ts with
  | nil =>
    intro pf acc att res pfF attF h
    simpa using h
  | cons t rest ih =>
    intro pf acc att res pfF attF h
    rw [providerLoop] at h
    split at h
    · obtain ⟨h1, h2, h3⟩ := by simpa using h
      subst h1
      simp only [Nat.sub_self, List.take_zero]
      rw [providerLoop]
      simp [h2, h3]
    · rcases hp : proc t with e | ⟨r, d, a⟩ <;> rw [hp] at h
      · exact absurd h (by simp)
      · have hlen := (providerLoop_length proc maxPages rest (pf + d) (acc ++ [r])
          (att ++ a) res pfF attF h).1
        simp only [List.length_append, List.length_singleton] at hlen
        have hn : res.length - acc.length = (res.length - (acc.length + 1)) + 1 := by omega
        rw [hn, List.take_succ_cons, providerLoop]
        rename_i hlt
        rw [if_neg hlt, hp]
        have := ih (pf + d) (acc ++ [r]) (att ++ a) res pfF attF h
        simpa using this

theorem providerLoop_ok
    (proc : Target → Except String (FetchResult × Nat × List String)) (maxPages : Nat) :
    ∀ (ts : List Target), (∀ t ∈ ts, ∃ x, proc t = .ok x) →
      ∀ (pf : Nat) (acc : List FetchResult) (att : List String),
        ∃ out, providerLoop proc maxPages ts pf acc att = .ok out := by
  intro ts
  induction ts with
  | nil => intro _ pf acc att; exact ⟨(acc, pf, att), rfl⟩
  | cons t rest ih =>
    intro h pf acc att
    rw [providerLoop]
    split
    · exact ⟨(acc, pf, att), rfl⟩
    · obtain ⟨⟨r, d, a⟩, hp⟩ := h t (List.mem_cons_self t rest)
      rw [hp]
      exact ih (fun t' ht' => h t' (List.mem_cons_of_mem t ht')) (pf + d) (acc ++ [r]) (att ++ a)

theorem providerLoop_mem
    (proc : Target → Except String (FetchResult × Nat × List String)) (maxPages : Nat)
    (P : FetchResult → Prop)
    (hP : ∀ t r d a, proc t = .ok (r, d, a) → P r) :
    ∀ (ts : List Target) (pf : Nat) (acc : List FetchResult) (att : List String)
      (res : List FetchResult) (pfF : Nat) (attF : List String),
      (∀ r ∈ acc, P r) →
      providerLoop proc maxPages ts pf acc att = .ok (res, pfF, attF) →
      ∀ r ∈ res, P r := by
  intro ts
  induction ts with
  | nil =>
    intro pf acc att res pfF attF hacc h
    rw [providerLoop] at h
    obtain ⟨h1, -, -⟩ := by simpa using h
    subst h1
    exact hacc
  | cons t rest ih =>
    intro pf acc att res pfF attF hacc h
    rw [providerLoop] at h
    split at h
    · obtain ⟨h1, -, -⟩ := by simpa using h
      subst h1
      exact hacc
    · rcases hp : proc t with e | ⟨r, d, a⟩ <;> rw [hp] at h
      · exact absurd h (by simp)
      · refine ih (pf + d) (acc ++ [r]) (att ++ a) res pfF attF ?_ h
        intro x hx
        rcases List.mem_append.mp hx with hx1 | hx2
        · exact hacc x hx1
        · rw [List.mem_singleton.mp hx2]
          exact hP t r d a hp

theorem providerLoop_const
    (proc : Target → Except String (FetchResult × Nat × List String)) (maxPages : Nat)
    (P : FetchResult → Prop) :
    ∀ (ts : List Target), (∀ t ∈ ts, ∃ r, proc t = .ok (r, 0, []) ∧ P r) →
      ∀ (pf : Nat) (acc : List FetchResult) (att : List String), pf < maxPages →
        ∃ out, providerLoop proc maxPages ts pf acc att = .ok (acc ++ out, pf, att) ∧
          out.length = ts.length ∧ ∀ r ∈ out, P r := by
  intro ts
  induction ts with
  | nil =>
    intro _ pf acc att _
    exact ⟨[], by rw [providerLoop]; simp, rfl, by simp⟩
  | cons t rest ih =>
    intro h pf acc att hlt
    obtain ⟨r, hp, hPr⟩ := h t (List.mem_cons_self t rest)
    obtain ⟨out, hloop, hlen, hall⟩ :=
      ih (fun t' ht' => h t' (List.mem_cons_of_mem t ht')) pf (acc ++ [r]) att hlt
    refine ⟨r :: out, ?_, by simp [hlen], ?_⟩
    · rw [providerLoop, if_neg (by omega), hp]
      simpa using hloop
    · intro x hx
      rcases List.mem_cons.mp hx with hx1 | hx2
      · rw [hx1]; exact hPr
      · exact hall x hx2

theorem providerLoop_append
    (proc : Target → Except String (FetchResult × Nat × List String)) (maxPages : Nat) :
    ∀ (ts1 ts2 : List Target) (pf : Nat) (acc : List FetchResult) (att : List String),
      providerLoop proc maxPages (ts1 ++ ts2) pf acc att =
        match providerLoop proc maxPages ts1 pf acc att with
        | .error e => .error e
        | .ok (res1, pf1, att1) => providerLoop proc maxPages ts2 pf1 res1 att1 := by
  intro ts1
  induction ts1 with
  | nil =>
    intro ts2 pf acc att
    rw [List.nil_append]
    conv_rhs => rw [providerLoop]
  | cons t rest ih =>
    intro ts2 pf acc att
    rw [List.cons_append, providerLoop]
    conv_rhs => rw [providerLoop]
    by_cases hb : maxPages ≤ pf
    · simp only [if_pos hb]
      cases ts2 with
      | nil => rw [providerLoop]
      | cons t2 rest2 => rw [providerLoop, if_pos hb]
    · simp only [if_neg hb]
      rcases hp : proc t with e | ⟨r, d, a⟩
      · rfl
      · exact ih ts2 (pf + d) (acc ++ [r]) (att ++ a)

/-! ### Fields the extractors never touch -/

def wikiFrame (a b : FetchResult) : Prop :=
  a.race_id = b.race_id ∧ a.race.id = b.race.id ∧ a.race.cycle = b.race.cycle ∧
  a.race.office = b.race.office ∧ a.race.state = b.race.state ∧
  a.race.district = b.race.district ∧ a.race.research_links = b.race.research_links

theorem wikiFrame_trans {a b c : FetchResult} (h1 : wikiFrame a b) (h2 : wikiFrame b c) :
    wikiFrame a c := by
  unfold wikiFrame at *
  exact ⟨h1.1.trans h2.1, h1.2.1.trans h2.2.1, h1.2.2.1.trans h2.2.2.1,
    h1.2.2.2.1.trans h2.2.2.2.1, h1.2.2.2.2.1.trans h2.2.2.2.2.1,
    h1.2.2.2.2.2.1.trans h2.2.2.2.2.2.1, h1.2.2.2.2.2.2.trans h2.2.2.2.2.2.2⟩

theorem wikiTitlePhase_wframe (doc : WikiDoc) (res : FetchResult) :
    wikiFrame (wikiTitlePhase doc res) res := by
  unfold wikiFrame wikiTitlePhase
  refine ⟨?_, ?_, ?_, ?_, ?_, ?_, ?_⟩ <;> ((repeat' split) <;> rfl)

theorem wikiDatesRow_wframe (res : FetchResult) (text : String) :
    wikiFrame (wikiDatesRow res text) res := by
  unfold wikiFrame wikiDatesRow
  refine ⟨?_, ?_, ?_, ?_, ?_, ?_, ?_⟩ <;> ((repeat' split) <;> rfl)

theorem wikiDatesPhase_wframe (doc : WikiDoc) (res : FetchResult) :
    wikiFrame (wikiDatesPhase doc res) res := by
  unfold wikiDatesPhase
  cases doc.infoboxRows with
  | none => exact ⟨rfl, rfl, rfl, rfl, rfl, rfl, rfl⟩
  | some rows =>
    exact foldlInv (fun a => wikiFrame a res) wikiDatesRow
      (fun a b hP => wikiFrame_trans (wikiDatesRow_wframe a b) hP)
      rows res ⟨rfl, rfl, rfl, rfl, rfl, rfl, rfl⟩

theorem wikiCandsPhase_wframe (doc : WikiDoc) (res : FetchResult) :
    wikiFrame (wikiCandsPhase doc res) res := by
  unfold wikiFrame wikiCandsPhase
  dsimp only
  refine ⟨?_, ?_, ?_, ?_, ?_, ?_, ?_⟩ <;> ((repeat' split) <;> rfl)

theorem parseWikipediaHtml_wframe (doc : WikiDoc) (res : FetchResult) :
    wikiFrame (parseWikipediaHtml doc res) res := by
  unfold parseWikipediaHtml
  exact wikiFrame_trans (wikiCandsPhase_wframe doc _)
    (wikiFrame_trans (wikiDatesPhase_wframe doc _) (wikiTitlePhase_wframe doc res))

def bFrame (a b : FetchResult) : Prop :=
  a.race_id = b.race_id ∧ a.race.id = b.race.id ∧
  a.race.research_links = b.race.research_links

theorem bFrame_trans {a b c : FetchResult} (h1 : bFrame a b) (h2 : bFrame b c) :
    bFrame a c :=
  ⟨h1.1.trans h2.1, h1.2.1.trans h2.2.1, h1.2.2.trans h2.2.2⟩

theorem bTitlePhase_bframe (doc : BallotDoc) (res : FetchResult) :
    bFrame (bTitlePhase doc res) res := by
  unfold bFrame bTitlePhase
  dsimp only
  refine ⟨?_, ?_, ?_⟩ <;> ((repeat' split) <;> rfl)

theorem bDatesPhase_bframe (doc : BallotDoc) (res : FetchResult) :
    bFrame (bDatesPhase doc res) res := by
  unfold bFrame bDatesPhase
  dsimp only
  refine ⟨?_, ?_, ?_⟩ <;> ((repeat' split) <;> rfl)

theorem ballotTableRows_bframe (rows : List (List String)) (res : FetchResult) :
    bFrame (ballotTableRows rows res) res := by
  unfold ballotTableRows
  refine foldlInv (fun a => bFrame a res) _ ?_ rows res ⟨rfl, rfl, rfl⟩
  intro a b hP
  refine bFrame_trans ?_ hP
  unfold bFrame
  dsimp only
  refine ⟨?_, ?_, ?_⟩ <;> ((repeat' split) <;> rfl)

theorem ballotCandLoop_bframe : ∀ (hs : List BHeading) (res : FetchResult),
    bFrame (ballotCandLoop hs res) res := by
  intro hs
  induction hs with
  | nil => intro res; exact ⟨rfl, rfl, rfl⟩
  | cons h rest ih =>
    intro res
    rw [ballotCandLoop]
    split
    · split
      · refine foldlInv (fun a => bFrame a res) _ ?_ _ res ⟨rfl, rfl, rfl⟩
        intro a li hP
        refine bFrame_trans ?_ hP
        unfold bFrame
        refine ⟨?_, ?_, ?_⟩ <;> ((repeat' split) <;> rfl)
      · split
        · exact ballotTableRows_bframe _ res
        · exact ih res
    · exact ih res

theorem bRatingsPhase_bframe (doc : BallotDoc) (res : FetchResult) :
    bFrame (bRatingsPhase doc res) res := by
  unfold bFrame bRatingsPhase
  refine ⟨?_, ?_, ?_⟩ <;> ((repeat' split) <;> rfl)

theorem bExtStep_id (res : FetchResult) (href : String) :
    (bExtStep res href).race_id = res.race_id ∧ (bExtStep res href).race.id = res.race.id := by
  unfold bExtStep
  refine ⟨?_, ?_⟩ <;> ((repeat' split) <;> rfl)

theorem bExtStep_links_le (res : FetchResult) (href : String) :
    (bExtStep res href).race.research_links.length ≤ res.race.research_links.length + 1 := by
  unfold bExtStep
  split
  · simp
  · omega

theorem foldl_bExtStep_id : ∀ (l : List String) (res : FetchResult),
    (l.foldl bExtStep res).race_id = res.race_id ∧
    (l.foldl bExtStep res).race.id = res.race.id := by
  intro l
  induction l with
  | nil => intro res; exact ⟨rfl, rfl⟩
  | cons x xs ih =>
    intro res
    rw [List.foldl_cons]
    exact ⟨(ih (bExtStep res x)).1.trans (bExtStep_id res x).1,
           (ih (bExtStep res x)).2.trans (bExtStep_id res x).2⟩

theorem foldl_bExtStep_links_le : ∀ (l : List String) (res : FetchResult),
    (l.foldl bExtStep res).race.research_links.length ≤
      res.race.research_links.length + l.length := by
  intro l
  induction l with
  | nil => intro res; simp
  | cons x xs ih =>
    intro res
    rw [List.foldl_cons]
    have h1 := ih (bExtStep res x)
    have h2 := bExtStep_links_le res x
    simp only [List.length_cons]
    omega

theorem bExtLinksPhase_id (doc : BallotDoc) (res : FetchResult) :
    (bExtLinksPhase doc res).race_id = res.race_id ∧
    (bExtLinksPhase doc res).race.id = res.race.id := by
  unfold bExtLinksPhase
  cases doc.extLinksAnchors with
  | none => exact ⟨rfl, rfl⟩
  | some links => exact foldl_bExtStep_id (links.take 6) res

theorem bExtLinksPhase_links_le (doc : BallotDoc) (res : FetchResult) :
    (bExtLinksPhase doc res).race.research_links.length ≤
      res.race.research_links.length + 6 := by
  unfold bExtLinksPhase
  cases doc.extLinksAnchors with
  | none => dsimp only; omega
  | some links =>
    dsimp only
    have h1 := foldl_bExtStep_links_le (links.take 6) res
    have h2 : (links.take 6).length ≤ 6 := by
      rw [List.length_take]
      omega
    omega

theorem parseBallotpediaHtml_id (doc : BallotDoc) (res : FetchResult) :
    (parseBallotpediaHtml doc res).race_id = res.race_id ∧
    (parseBallotpediaHtml doc res).race.id = res.race.id := by
  unfold parseBallotpediaHtml
  have hE := bExtLinksPhase_id doc (bRatingsPhase doc (ballotCandLoop doc.headings
    (bDatesPhase doc (bTitlePhase doc res))))
  have hB : bFrame (bRatingsPhase doc (ballotCandLoop doc.headings
      (bDatesPhase doc (bTitlePhase doc res)))) res :=
    bFrame_trans (bRatingsPhase_bframe doc _)
      (bFrame_trans (ballotCandLoop_bframe doc.headings _)
        (bFrame_trans (bDatesPhase_bframe doc _) (bTitlePhase_bframe doc res)))
  exact ⟨hE.1.trans hB.1, hE.2.trans hB.2.1⟩

theorem parseBallotpediaHtml_links_le (doc : BallotDoc) (res : FetchResult) :
    (parseBallotpediaHtml doc res).race.research_links.length ≤
      res.race.research_links.length + 6 := by
  unfold parseBallotpediaHtml
  have hE := bExtLinksPhase_links_le doc (bRatingsPhase doc (ballotCandLoop doc.headings
    (bDatesPhase doc (bTitlePhase doc res))))
  have hB : bFrame (bRatingsPhase doc (ballotCandLoop doc.headings
      (bDatesPhase doc (bTitlePhase doc res)))) res :=
    bFrame_trans (bRatingsPhase_bframe doc _)
      (bFrame_trans (ballotCandLoop_bframe doc.headings _)
        (bFrame_trans (bDatesPhase_bframe doc _) (bTitlePhase_bframe doc res)))
  rw [hB.2.2] at hE
  exact hE

/-! ### Per-target lemmas -/

theorem pyOrStr_untruthy (a : Option String) (b : String) (h : pyTruthy a = false) :
    pyOrStr a b = b := by
  cases a with
  | none => rfl
  | some s =>
    unfold pyTruthy at h
    unfold pyOrStr
    simp only [ne_eq, decide_not, Bool.not_eq_false', decide_eq_true_eq] at h
    simp [h]

theorem researchQueries_length (race : Race) : (researchQueries race).length = 3 := by
  unfold researchQueries
  dsimp only
  (repeat' split) <;> rfl

theorem wikiSuccessOutcome_ids (doc : WikiDoc) (url : String) (res : FetchResult) :
    (wikiSuccessOutcome doc url res).race_id = res.race_id ∧
    (wikiSuccessOutcome doc url res).race.id = res.race.id := by
  unfold wikiSuccessOutcome
  dsimp only
  exact ⟨(parseWikipediaHtml_wframe doc res).1, (parseWikipediaHtml_wframe doc res).2.1⟩

theorem wikiFailOutcome_ids (e : String) (res : FetchResult) :
    (wikiFailOutcome e res).race_id = res.race_id ∧
    (wikiFailOutcome e res).race.id = res.race.id := by
  exact ⟨rfl, rfl⟩

theorem wikiSuccessOutcome_links (doc : WikiDoc) (url : String) (res : FetchResult)
    (h : res.race.research_links = []) :
    (wikiSuccessOutcome doc url res).race.research_links =
      researchQueries (wikiSuccessOutcome doc url res).race ∧
    (wikiSuccessOutcome doc url res).race.research_links.length = 3 := by
  unfold wikiSuccessOutcome
  dsimp only
  have hl : (parseWikipediaHtml doc res).race.research_links = [] :=
    ((parseWikipediaHtml_wframe doc res).2.2.2.2.2.2).trans h
  constructor
  · show (parseWikipediaHtml doc res).race.research_links ++ _ = _
    rw [hl]
    rfl
  · show ((parseWikipediaHtml doc res).race.research_links ++ _).length = 3
    rw [hl, List.nil_append]
    exact researchQueries_length _

theorem wikiFailOutcome_links (e : String) (res : FetchResult)
    (h : res.race.research_links = []) :
    (wikiFailOutcome e res).race.research_links =
      researchQueries (wikiFailOutcome e res).race ∧
    (wikiFailOutcome e res).race.research_links.length = 3 := by
  unfold wikiFailOutcome
  dsimp only
  constructor
  · show res.race.research_links ++ _ = _
    rw [h]
    rfl
  · show (res.race.research_links ++ _).length = 3
    rw [h, List.nil_append]
    exact researchQueries_length _

theorem wikiProcessTarget_d_le_one (fetch : String → Except String WikiDoc) (t : Target)
    (r : FetchResult) (d : Nat) (a : List String)
    (h : wikiProcessTarget fetch t = .ok (r, d, a)) : d ≤ 1 := by
  unfold wikiProcessTarget at h
  dsimp only at h
  split at h
  · exact absurd h (by simp)
  · split at h
    · obtain ⟨-, hd, -⟩ := by simpa using h
      omega
    · split at h <;>
      · obtain ⟨-, hd, -⟩ := by simpa using h
        omega

theorem wikiProcessTarget_ok (fetch : String → Except String WikiDoc) (t : Target)
    (c : Int) (hc : t.cycle = some c) :
    ∃ x, wikiProcessTarget fetch t = .ok x := by
  unfold wikiProcessTarget
  rw [hc]
  simp only [pyInt]
  split
  · exact ⟨_, rfl⟩
  · split <;> exact ⟨_, rfl⟩

theorem wikiProcessTarget_ids (fetch : String → Except String WikiDoc) (t : Target)
    (r : FetchResult) (d : Nat) (a : List String)
    (h : wikiProcessTarget fetch t = .ok (r, d, a)) :
    r.race_id = r.race.id ∧
    r.race_id = pyOrStr t.id (pyOrStr (t.wikipedia.getD {}).title
      (pyOrStr (t.wikipedia.getD {}).url "unknown")) := by
  unfold wikiProcessTarget at h
  dsimp only at h
  split at h
  · exact absurd h (by simp)
  · split at h
    · obtain ⟨h1, -, -⟩ := by simpa using h
      subst h1
      exact ⟨rfl, rfl⟩
    · split at h
      · obtain ⟨h1, -, -⟩ := by simpa using h
        subst h1
        constructor
        · rw [(wikiSuccessOutcome_ids _ _ _).1, (wikiSuccessOutcome_ids _ _ _).2]
        · rw [(wikiSuccessOutcome_ids _ _ _).1]
      · obtain ⟨h1, -, -⟩ := by simpa using h
        subst h1
        constructor
        · rw [(wikiFailOutcome_ids _ _).1, (wikiFailOutcome_ids _ _).2]
        · rw [(wikiFailOutcome_ids _ _).1]

theorem wikiProcessTarget_nosrc (fetch : String → Except String WikiDoc) (t : Target)
    (c : Int) (hc : t.cycle = some c)
    (hti : pyTruthy (t.wikipedia.getD {}).title = false)
    (hur : pyTruthy (t.wikipedia.getD {}).url = false) :
    ∃ r, wikiProcessTarget fetch t = .ok (r, 0, []) ∧
      r.errors = ["No Wikipedia title or URL provided"] ∧
      r.race.title = none ∧ r.race.election_date = none ∧ r.race.primary_date = none ∧
      r.race.candidates = [] := by
  unfold wikiProcessTarget
  rw [hc]
  simp only [pyInt]
  rw [if_pos ⟨hti, hur⟩]
  exact ⟨_, rfl, rfl, rfl, rfl, rfl, rfl⟩

theorem wikiProcessTarget_links (fetch : String → Except String WikiDoc) (t : Target)
    (r : FetchResult) (d : Nat) (a : List String)
    (hsrc : (pyTruthy (t.wikipedia.getD {}).title || pyTruthy (t.wikipedia.getD {}).url) = true)
    (h : wikiProcessTarget fetch t = .ok (r, d, a)) :
    r.race.research_links = researchQueries r.race ∧
    r.race.research_links.length = 3 := by
  unfold wikiProcessTarget at h
  dsimp only at h
  split at h
  · exact absurd h (by simp)
  · split at h
    · rename_i hcond
      rcases hcond with ⟨h1, h2⟩
      rw [h1, h2] at hsrc
      simp at hsrc
    · split at h
      · obtain ⟨h1, -, -⟩ := by simpa using h
        subst h1
        exact wikiSuccessOutcome_links _ _ _ rfl
      · obtain ⟨h1, -, -⟩ := by simpa using h
        subst h1
        exact wikiFailOutcome_links _ _ rfl

/-! ### Ballotpedia per-target lemmas -/

theorem ballotTryTitles_pf_le (get : String → Except String (Option BallotDoc)) :
    ∀ (ts : List String) (res : FetchResult) (pf : Nat) (att : List String),
      (ballotTryTitles get ts res pf att).2.1 ≤ pf + 1 := by
  intro ts
  induction ts with
  | nil => intro res pf att; exact Nat.le_succ pf
  | cons t rest ih =>
    intro res pf att
    rw [ballotTryTitles]
    split
    · exact ih _ pf _
    · exact ih _ pf _
    · exact Nat.le_refl _

theorem ballotTryTitles_ids (get : String → Except String (Option BallotDoc)) :
    ∀ (ts : List String) (res : FetchResult) (pf : Nat) (att : List String),
      (ballotTryTitles get ts res pf att).1.race_id = res.race_id ∧
      (ballotTryTitles get ts res pf att).1.race.id = res.race.id := by
  intro ts
  induction ts with
  | nil => intro res pf att; exact ⟨rfl, rfl⟩
  | cons t rest ih =>
    intro res pf att
    rw [ballotTryTitles]
    split
    · exact ih _ pf _
    · exact ih _ pf _
    · rename_i doc heq
      dsimp only
      exact ⟨(parseBallotpediaHtml_id doc _).1, (parseBallotpediaHtml_id doc _).2⟩

theorem ballotTryTitles_links_le (get : String → Except String (Option BallotDoc)) :
    ∀ (ts : List String) (res : FetchResult) (pf : Nat) (att : List String),
      (ballotTryTitles get ts res pf att).1.race.research_links.length ≤
        res.race.research_links.length + 6 := by
  intro ts
  induction ts with
  | nil => intro res pf att; exact Nat.le_add_right _ _
  | cons t rest ih =>
    intro res pf att
    rw [ballotTryTitles]
    split
    · exact ih _ pf _
    · exact ih _ pf _
    · rename_i doc heq
      dsimp only
      exact parseBallotpediaHtml_links_le doc _

theorem ballotWrapUp_ids (res : FetchResult) (f : Bool) :
    (ballotWrapUp res f).race_id = res.race_id ∧
    (ballotWrapUp res f).race.id = res.race.id := by
  unfold ballotWrapUp
  refine ⟨?_, ?_⟩ <;> (split <;> rfl)

theorem ballotWrapUp_links (res : FetchResult) (f : Bool) :
    (ballotWrapUp res f).race.research_links = res.race.research_links := by
  unfold ballotWrapUp
  split <;> rfl

theorem ballotProcessTarget_d_le_one (get : String → Except String (Option BallotDoc))
    (t : Target) (r : FetchResult) (d : Nat) (a : List String)
    (h : ballotProcessTarget get t = .ok (r, d, a)) : d ≤ 1 := by
  unfold ballotProcessTarget at h
  dsimp only at h
  split at h
  · exact absurd h (by simp)
  · obtain ⟨-, hd, -⟩ := by simpa using h
    subst hd
    exact ballotTryTitles_pf_le get _ _ 0 _

theorem ballotProcessTarget_ok (get : String → Except String (Option BallotDoc)) (t : Target)
    (c : Int) (hc : t.cycle = some c) :
    ∃ x, ballotProcessTarget get t = .ok x := by
  unfold ballotProcessTarget
  rw [hc]
  simp only [pyInt]
  exact ⟨_, rfl⟩

theorem ballotProcessTarget_ids (get : String → Except String (Option BallotDoc)) (t : Target)
    (r : FetchResult) (d : Nat) (a : List String)
    (h : ballotProcessTarget get t = .ok (r, d, a)) :
    r.race_id = r.race.id ∧
    r.race_id = pyOrStr t.id (pyStr t.state ++ "-" ++ pyStr t.office ++ "-" ++ pyIntStr t.cycle) := by
  unfold ballotProcessTarget at h
  dsimp only at h
  split at h
  · exact absurd h (by simp)
  · obtain ⟨h1, -, -⟩ := by simpa using h
    subst h1
    constructor
    · rw [(ballotWrapUp_ids _ _).1, (ballotWrapUp_ids _ _).2,
        (ballotTryTitles_ids get _ _ _ _).1, (ballotTryTitles_ids get _ _ _ _).2]
    · rw [(ballotWrapUp_ids _ _).1, (ballotTryTitles_ids get _ _ _ _).1]

theorem ballotProcessTarget_links_le (get : String → Except String (Option BallotDoc))
    (t : Target) (r : FetchResult) (d : Nat) (a : List String)
    (h : ballotProcessTarget get t = .ok (r, d, a)) :
    r.race.research_links.length ≤ 6 := by
  unfold ballotProcessTarget at h
  dsimp only at h
  split at h
  · exact absurd h (by simp)
  · obtain ⟨h1, -, -⟩ := by simpa using h
    subst h1
    rw [ballotWrapUp_links]
    exact ballotTryTitles_links_le get _ _ 0 []

/-! ## Claim theorems -/

/-- C7: for every Ballotpedia target (any state name, office, cycle,
optional district), _candidate_titles returns a non-empty sequence whose
last element is the generic "cycle_elections_in_state" fallback (the
underscore form of "cycle elections in state", state spaces replaced by
underscores as for every Ballotpedia page title). -/
theorem C7_titles_end_with_generic (state_name office : String) (cycle : Int)
    (district : Option String) :
    candidateTitles state_name office cycle district ≠ [] ∧
    (candidateTitles state_name office cycle district).getLast? =
      some (toString cycle ++ "_elections_in_" ++ pyReplace state_name " " "_") := by
  unfold candidateTitles
  exact ⟨appendSingletonNeNil _ _, getLastAppendSingleton _ _⟩

/-- C2 (counterexample): an outcome that carries an error but has a
populated candidate list is nevertheless excluded by the report filter,
against the claim that an errored outcome is excluded only when its
candidates and dates are empty. -/
theorem C2_errored_outcome_with_candidates_excluded :
    keep cexErrRes = false ∧ cexErrRes.race.candidates ≠ [] ∧
    applyFilter false [cexErrRes] = [] := by
  refine ⟨rfl, by decide, rfl⟩

/-- C2 (amended): the filter excludes an outcome iff it carries any error
OR has no truthy candidates, election date and primary date; with the
include-empty option every outcome is included.  The all-non-200 outcome
(errors non-empty, everything else unset) is therefore excluded exactly
when the filter is enabled. -/
theorem C2_filter_characterisation :
    (∀ fr : FetchResult,
      (keep fr = false ↔ (fr.errors ≠ [] ∨ (fr.race.candidates = [] ∧
        pyTruthy fr.race.election_date = false ∧ pyTruthy fr.race.primary_date = false)))) ∧
    (∀ rs : List FetchResult, applyFilter true rs = rs) := by
  constructor
  · intro fr
    unfold keep
    rcases he : fr.errors with _ | ⟨e, es⟩
    · simp only [List.isEmpty_nil, if_neg]
      rcases hc : fr.race.candidates with _ | ⟨c, cs⟩ <;>
        rcases hd : pyTruthy fr.race.election_date <;>
          rcases hp : pyTruthy fr.race.primary_date <;> simp
    · simp
  · intro rs; rfl

/-- C9 (counterexample): the Ballotpedia extractor, on a page from which
zero candidates are extracted, appends no note at all — the
"no candidates parsed; structure may differ" note exists only in the
Wikipedia variant. -/
theorem C9_ballotpedia_zero_candidates_no_note :
    parseBallotpediaHtml cexEmptyBDoc cexRes0 = cexRes0 ∧
    cexRes0.race.candidates = [] ∧ cexRes0.notes = [] := by
  refine ⟨rfl, rfl, rfl⟩

/-- C9 (amended): in the Wikipedia variant, whenever candidate extraction
produces zero candidates, the note "No candidates parsed; structure may
differ" (with a capital N, unlike the quotation in the spec) is appended and the
candidate list is left as it was. -/
theorem C9_wikipedia_no_candidates_note (doc : WikiDoc) (res : FetchResult)
    (h : extractCandidates doc = []) :
    (parseWikipediaHtml doc res).notes =
      res.notes ++ ["No candidates parsed; structure may differ"] ∧
    (parseWikipediaHtml doc res).race.candidates = res.race.candidates := by
  have hT := wikiTitlePhase_frame doc res
  have hD := wikiDatesPhase_frame doc (wikiTitlePhase doc res)
  unfold parseWikipediaHtml wikiCandsPhase
  rw [h]
  simp only [List.isEmpty_nil, if_pos]
  exact ⟨by rw [hD.1, hT.1], by rw [hD.2, hT.2]⟩

/-- C9 (witness): the Wikipedia note on a markup with zero extractable
candidates. -/
theorem C9_wikipedia_no_candidates_note_witness :
    extractCandidates cexEmptyWDoc = [] ∧
    (parseWikipediaHtml cexEmptyWDoc cexRes0).notes =
      cexRes0.notes ++ ["No candidates parsed; structure may differ"] ∧
    (parseWikipediaHtml cexEmptyWDoc cexRes0).race.candidates = cexRes0.race.candidates :=
  ⟨rfl, (C9_wikipedia_no_candidates_note cexEmptyWDoc cexRes0 rfl).1,
    (C9_wikipedia_no_candidates_note cexEmptyWDoc cexRes0 rfl).2⟩

/-- C5 (counterexample): under a "Candidates" heading, the list items
"Jane Doe", "JANE DOE", "John Roe" extract to three candidates — the
heading path performs no deduplication, so the extracted list holds two
names equal up to case and does not have length two. -/
theorem C5_heading_path_keeps_case_duplicates :
    extractCandidates cexDocHeading =
      [{ name := "Jane Doe", party := some "D" }, { name := "JANE DOE", party := some "D" },
       { name := "John Roe", party := some "R" }] ∧
    (extractCandidates cexDocHeading).length ≠ 2 ∧
    pyLower "Jane Doe" = pyLower "JANE DOE" := by
  refine ⟨rfl, by decide, rfl⟩

/-- C5 (amended): deduplication happens only on the fallback path (no
heading-derived candidates): there it is case-insensitive on names and
order-preserving (the output is a sublist of the input with pairwise
distinct lower-cased names), and on the concrete fallback markup with items
"Jane Doe", "JANE DOE", "John Roe" extraction yields exactly the two
candidates "Jane Doe" then "John Roe" with first-seen casing. -/
theorem C5_fallback_dedup_case_insensitive :
    (∀ cs : List Candidate,
      List.Pairwise (fun a b => pyLower a.name ≠ pyLower b.name) (dedupByLowerName cs) ∧
      List.Sublist (dedupByLowerName cs) cs) ∧
    extractCandidates cexDocFallback =
      [{ name := "Jane Doe", party := some "D" }, { name := "John Roe", party := some "R" }] := by
  exact ⟨fun cs => ⟨dedupGo_pairwise cs [], dedupGo_sublist cs []⟩, rfl⟩

/-- C4 (counterexample): with the date sub-extraction raising (as a
RecursionError from deeply nested markup can), the extractor propagates
the exception out of its boundary and the candidate sub-extraction never
runs — its statement sequence has no internal handler, so one
sub-extraction failure aborts the remaining fields. -/
theorem C4_date_exception_aborts_candidates :
    parseWikipediaHtmlSteps stepTitleOk stepDateBoom stepCands cexRes0 =
      (cexR0, some "RecursionError: maximum recursion depth exceeded") ∧
    (parseWikipediaHtmlSteps stepTitleOk stepDateBoom stepCands cexRes0).1.race.candidates = [] ∧
    (parseWikipediaHtmlSteps stepTitleOk stepDateBoom stepCands cexRes0).2 ≠ none := by
  refine ⟨rfl, rfl, by decide⟩

/-- C4 (amended): a parse exception in one sub-extraction aborts the
remaining sub-extractions of that page (the extractor returns the state
mutated so far together with the exception), and the per-target handler of
fetch_for_targets catches it, appending "Fetch failed: ..." to the outcome
— so the exception never escapes the run, but the remaining fields are not
extracted. -/
theorem C4_parse_exception_caught_at_target_level
    (ts ds cs : ParseStep) (res r0 r1 : FetchResult) (e : String)
    (doc : WikiDoc) (url : String)
    (h1 : ts res = (r0, none)) (h2 : ds r0 = (r1, some e)) :
    parseWikipediaHtmlSteps ts ds cs res = (r1, some e) ∧
    wikiTryBlock (.ok doc) (fun _ => parseWikipediaHtmlSteps ts ds cs) url res =
      ({ r1 with errors := r1.errors ++ ["Fetch failed: " ++ e] }, 1) := by
  have hrun : parseWikipediaHtmlSteps ts ds cs res = (r1, some e) := by
    unfold parseWikipediaHtmlSteps runSteps
    rw [h1]
    unfold runSteps
    rw [h2]
  refine ⟨hrun, ?_⟩
  simp only [wikiTryBlock]
  rw [hrun]

/-- C4 (witness): the amended behaviour at the concrete failing steps. -/
theorem C4_parse_exception_caught_witness :
    parseWikipediaHtmlSteps stepTitleOk stepDateBoom stepCands cexRes0 =
      (cexR0, some "RecursionError: maximum recursion depth exceeded") ∧
    wikiTryBlock (.ok cexEmptyWDoc) (fun _ => parseWikipediaHtmlSteps stepTitleOk stepDateBoom stepCands)
        "u" cexRes0 =
      ({ cexR0 with errors := cexR0.errors ++
          ["Fetch failed: " ++ "RecursionError: maximum recursion depth exceeded"] }, 1) :=
  C4_parse_exception_caught_at_target_level stepTitleOk stepDateBoom stepCands
    cexRes0 cexR0 cexR0 "RecursionError: maximum recursion depth exceeded"
    cexEmptyWDoc "u" rfl rfl

/-- C1 (counterexample): with a page budget of 1 and two targets whose
fetches fail, the run performs two fetch attempts — the budget counts only
successful fetches, so failed attempts are not bounded by it — and still
returns both outcomes. -/
theorem C1_attempts_exceed_budget :
    [cexTargetW, cexTargetW].length = 2 ∧
    (okParts (fetchForTargetsWiki fetch503 1 [cexTargetW, cexTargetW])).2.2.length = 2 ∧
    1 < (okParts (fetchForTargetsWiki fetch503 1 [cexTargetW, cexTargetW])).2.2.length ∧
    (okParts (fetchForTargetsWiki fetch503 1 [cexTargetW, cexTargetW])).1.length = 2 := by
  exact ⟨rfl, rfl, by decide, rfl⟩

/-- C1 (amended): in both providers the budget caps the number of
successful fetches (the final page counter never exceeds it), the run
returns at most one outcome per target, a run returning fewer outcomes than
targets stopped exactly because the counter reached the budget, and the
outcomes returned are exactly those of the corresponding prefix of the
target list, in original order, with the same attempted URLs (remaining
targets are never attempted and never marked as errored).  Conversely, when
the budget is already exhausted after the targets before the last one, the
run equals the run on those targets and returns fewer outcomes than it has
targets. -/
theorem C1_budget_caps_successful_fetches
    (fetch : String → Except String WikiDoc) (get : String → Except String (Option BallotDoc))
    (maxPages : Nat) (targets : List Target) :
    ((∀ res pf att, fetchForTargetsWiki fetch maxPages targets = .ok (res, pf, att) →
      pf ≤ maxPages ∧ res.length ≤ targets.length ∧
      (res.length < targets.length → pf = maxPages) ∧
      fetchForTargetsWiki fetch maxPages (targets.take res.length) = .ok (res, pf, att)) ∧
     (∀ ts1 tlast res1 pf1 att1, targets = ts1 ++ [tlast] →
      fetchForTargetsWiki fetch maxPages ts1 = .ok (res1, pf1, att1) → maxPages ≤ pf1 →
      fetchForTargetsWiki fetch maxPages targets = .ok (res1, pf1, att1) ∧
      res1.length < targets.length)) ∧
    ((∀ res pf att, fetchForTargetsBallot get maxPages targets = .ok (res, pf, att) →
      pf ≤ maxPages ∧ res.length ≤ targets.length ∧
      (res.length < targets.length → pf = maxPages) ∧
      fetchForTargetsBallot get maxPages (targets.take res.length) = .ok (res, pf, att)) ∧
     (∀ ts1 tlast res1 pf1 att1, targets = ts1 ++ [tlast] →
      fetchForTargetsBallot get maxPages ts1 = .ok (res1, pf1, att1) → maxPages ≤ pf1 →
      fetchForTargetsBallot get maxPages targets = .ok (res1, pf1, att1) ∧
      res1.length < targets.length)) := by
  constructor
  · constructor
    · intro res pf att h
      have hle := providerLoop_pf_le (wikiProcessTarget fetch) maxPages
        (wikiProcessTarget_d_le_one fetch) targets 0 [] [] res pf att (Nat.zero_le _) h
      have hlen := providerLoop_length (wikiProcessTarget fetch) maxPages targets 0 [] []
        res pf att h
      have htake := providerLoop_take (wikiProcessTarget fetch) maxPages targets 0 [] []
        res pf att h
      simp only [List.length_nil, Nat.zero_add, Nat.sub_zero] at hlen htake
      exact ⟨hle, hlen.2.1, fun hlt => Nat.le_antisymm hle (hlen.2.2 hlt), htake⟩
    · intro ts1 tlast res1 pf1 att1 hsplit h1 hb
      subst hsplit
      unfold fetchForTargetsWiki at h1 ⊢
      refine ⟨?_, ?_⟩
      · rw [providerLoop_append (wikiProcessTarget fetch) maxPages ts1 [tlast] 0 [] [], h1]
        dsimp only
        rw [providerLoop, if_pos hb]
      · have hlen := (providerLoop_length (wikiProcessTarget fetch) maxPages ts1 0 [] []
          res1 pf1 att1 h1).2.1
        simp only [List.length_nil, Nat.zero_add] at hlen
        simp only [List.length_append, List.length_singleton]
        omega
  · constructor
    · intro res pf att h
      have hle := providerLoop_pf_le (ballotProcessTarget get) maxPages
        (ballotProcessTarget_d_le_one get) targets 0 [] [] res pf att (Nat.zero_le _) h
      have hlen := providerLoop_length (ballotProcessTarget get) maxPages targets 0 [] []
        res pf att h
      have htake := providerLoop_take (ballotProcessTarget get) maxPages targets 0 [] []
        res pf att h
      simp only [List.length_nil, Nat.zero_add, Nat.sub_zero] at hlen htake
      exact ⟨hle, hlen.2.1, fun hlt => Nat.le_antisymm hle (hlen.2.2 hlt), htake⟩
    · intro ts1 tlast res1 pf1 att1 hsplit h1 hb
      subst hsplit
      unfold fetchForTargetsBallot at h1 ⊢
      refine ⟨?_, ?_⟩
      · rw [providerLoop_append (ballotProcessTarget get) maxPages ts1 [tlast] 0 [] [], h1]
        dsimp only
        rw [providerLoop, if_pos hb]
      · have hlen := (providerLoop_length (ballotProcessTarget get) maxPages ts1 0 [] []
          res1 pf1 att1 h1).2.1
        simp only [List.length_nil, Nat.zero_add] at hlen
        simp only [List.length_append, List.length_singleton]
        omega

/-- C3 (counterexample): a target whose descriptor lacks the cycle field
makes int(None) raise, and the exception aborts the whole run of either
provider — a malformed per-target field is fatal, not degraded to a
per-target error. -/
theorem C3_missing_cycle_aborts_run :
    fetchForTargetsWiki fetchEmptyDoc 40 [cexTargetNoCycle] =
      .error "TypeError: int() argument must be a string, a bytes-like object or a real number, not NoneType" ∧
    fetchForTargetsBallot getNon200 40 [cexTargetNoCycle] =
      .error "TypeError: int() argument must be a string, a bytes-like object or a real number, not NoneType" := by
  exact ⟨rfl, rfl⟩

/-- C3 (amended): when every target carries a cycle value, no fetch or
parse failure is fatal — both runs return an ordered outcome sequence for
every fetch oracle; only a target whose cycle is missing (or the target
list itself being unreadable) aborts a run. -/
theorem C3_run_total_when_cycles_present
    (fetch : String → Except String WikiDoc) (get : String → Except String (Option BallotDoc))
    (maxPages : Nat) (targets : List Target)
    (h : ∀ t ∈ targets, t.cycle ≠ none) :
    (∃ x, fetchForTargetsWiki fetch maxPages targets = .ok x) ∧
    (∃ y, fetchForTargetsBallot get maxPages targets = .ok y) := by
  constructor
  · refine providerLoop_ok (wikiProcessTarget fetch) maxPages targets ?_ 0 [] []
    intro t ht
    cases hcy : t.cycle with
    | none => exact absurd hcy (h t ht)
    | some c => exact wikiProcessTarget_ok fetch t c hcy
  · refine providerLoop_ok (ballotProcessTarget get) maxPages targets ?_ 0 [] []
    intro t ht
    cases hcy : t.cycle with
    | none => exact absurd hcy (h t ht)
    | some c => exact ballotProcessTarget_ok get t c hcy

/-- C3 (witness): both runs complete on a target list whose one target has
a cycle, even though every network call fails. -/
theorem C3_run_total_witness :
    (∃ x, fetchForTargetsWiki fetch503 1 [cexTargetW] = .ok x) ∧
    (∃ y, fetchForTargetsBallot getNon200 1 [cexTargetW] = .ok y) :=
  C3_run_total_when_cycles_present fetch503 getNon200 1 [cexTargetW]
    (by intro t ht; rw [List.mem_singleton] at ht; subst ht; decide)

/-- C6: on a target list of Wikipedia-style targets each lacking both an
explicit title and a URL (and carrying a cycle), with a positive page
budget, the run returns exactly one outcome per target, each with the
single error "No Wikipedia title or URL provided", unset title and dates
and an empty candidate list, a page counter of zero and no fetch attempt
at all. -/
theorem C6_no_source_target_outcomes
    (fetch : String → Except String WikiDoc) (maxPages : Nat) (targets : List Target)
    (hmp : 0 < maxPages)
    (h : ∀ t ∈ targets, t.cycle ≠ none ∧ pyTruthy (t.wikipedia.getD {}).title = false ∧
      pyTruthy (t.wikipedia.getD {}).url = false) :
    ∃ outs, fetchForTargetsWiki fetch maxPages targets = .ok (outs, 0, []) ∧
      outs.length = targets.length ∧
      ∀ r ∈ outs, r.errors = ["No Wikipedia title or URL provided"] ∧
        r.race.title = none ∧ r.race.election_date = none ∧ r.race.primary_date = none ∧
        r.race.candidates = [] := by
  have hts : ∀ t ∈ targets, ∃ r, wikiProcessTarget fetch t = .ok (r, 0, []) ∧
      (r.errors = ["No Wikipedia title or URL provided"] ∧
       r.race.title = none ∧ r.race.election_date = none ∧ r.race.primary_date = none ∧
       r.race.candidates = []) := by
    intro t ht
    cases hcy : t.cycle with
    | none => exact absurd hcy (h t ht).1
    | some c =>
      obtain ⟨r, hok, h1, h2, h3, h4, h5⟩ :=
        wikiProcessTarget_nosrc fetch t c hcy (h t ht).2.1 (h t ht).2.2
      exact ⟨r, hok, h1, h2, h3, h4, h5⟩
  obtain ⟨out, hloop, hlen, hall⟩ := providerLoop_const (wikiProcessTarget fetch) maxPages
    (fun r => r.errors = ["No Wikipedia title or URL provided"] ∧
      r.race.title = none ∧ r.race.election_date = none ∧ r.race.primary_date = none ∧
      r.race.candidates = [])
    targets hts 0 [] [] hmp
  exact ⟨out, by simpa using hloop, hlen, hall⟩

/-- C6 (witness): the no-source outcome at a concrete target. -/
theorem C6_no_source_target_outcomes_witness :
    ∃ outs, fetchForTargetsWiki fetch503 40 [cexTargetNoSrc] = .ok (outs, 0, []) ∧
      outs.length = [cexTargetNoSrc].length ∧
      ∀ r ∈ outs, r.errors = ["No Wikipedia title or URL provided"] ∧
        r.race.title = none ∧ r.race.election_date = none ∧ r.race.primary_date = none ∧
        r.race.candidates = [] :=
  C6_no_source_target_outcomes fetch503 40 [cexTargetNoSrc] (by decide)
    (by intro t ht; rw [List.mem_singleton] at ht; subst ht; exact ⟨by decide, rfl, rfl⟩)

/-- C8 (counterexample): a Ballotpedia target whose every fetch returns
non-200 is processed to an outcome with an empty research-link list — the
Ballotpedia variant never synthesizes search-engine query URLs, against the
claim that both variants always append them. -/
theorem C8_ballotpedia_no_search_queries :
    (okParts (fetchForTargetsBallot getNon200 40 [cexTargetB])).1.map
      (fun r => r.race.research_links) = [[]] ∧
    (okParts (fetchForTargetsBallot getNon200 40 [cexTargetB])).1.map
      (fun r => r.errors) = [["No Ballotpedia page found"]] := by
  exact ⟨rfl, rfl⟩

/-- C8 (amended): the Wikipedia variant appends exactly its three
search-engine query URLs (parameterized by state, office, cycle and
district) to every outcome of a target that has a title or URL, whether or
not the fetch and extraction succeeded; the Ballotpedia variant appends no
search queries — its research links are only the up-to-six harvested
external links of a successfully parsed page. -/
theorem C8_research_links_by_variant
    (fetch : String → Except String WikiDoc) (get : String → Except String (Option BallotDoc)) :
    (∀ (t : Target) r d a,
      (pyTruthy (t.wikipedia.getD {}).title || pyTruthy (t.wikipedia.getD {}).url) = true →
      wikiProcessTarget fetch t = .ok (r, d, a) →
      r.race.research_links = researchQueries r.race ∧ r.race.research_links.length = 3) ∧
    (∀ (t : Target) r d a, ballotProcessTarget get t = .ok (r, d, a) →
      r.race.research_links.length ≤ 6) :=
  ⟨fun t r d a hsrc h => wikiProcessTarget_links fetch t r d a hsrc h,
   fun t r d a h => ballotProcessTarget_links_le get t r d a h⟩

/-- C10: in both providers every returned outcome has race_id equal to the
id of the race it wraps, and when the target carries no truthy explicit id
both equal the derived default — title or URL or "unknown" for Wikipedia,
"state-office-cycle" rendered from the raw entry fields for Ballotpedia. -/
theorem C10_outcome_id_equals_race_id
    (fetch : String → Except String WikiDoc) (get : String → Except String (Option BallotDoc))
    (maxPages : Nat) (targets : List Target) :
    (∀ res pf att, fetchForTargetsWiki fetch maxPages targets = .ok (res, pf, att) →
      ∀ r ∈ res, r.race_id = r.race.id) ∧
    (∀ res pf att, fetchForTargetsBallot get maxPages targets = .ok (res, pf, att) →
      ∀ r ∈ res, r.race_id = r.race.id) ∧
    (∀ (t : Target) r d a, pyTruthy t.id = false → wikiProcessTarget fetch t = .ok (r, d, a) →
      r.race_id = pyOrStr (t.wikipedia.getD {}).title
        (pyOrStr (t.wikipedia.getD {}).url "unknown")) ∧
    (∀ (t : Target) r d a, pyTruthy t.id = false → ballotProcessTarget get t = .ok (r, d, a) →
      r.race_id = pyStr t.state ++ "-" ++ pyStr t.office ++ "-" ++ pyIntStr t.cycle) := by
  refine ⟨?_, ?_, ?_, ?_⟩
  · intro res pf att h
    exact providerLoop_mem (wikiProcessTarget fetch) maxPages
      (fun r => r.race_id = r.race.id)
      (fun t r d a hp => (wikiProcessTarget_ids fetch t r d a hp).1)
      targets 0 [] [] res pf att (by simp) h
  · intro res pf att h
    exact providerLoop_mem (ballotProcessTarget get) maxPages
      (fun r => r.race_id = r.race.id)
      (fun t r d a hp => (ballotProcessTarget_ids get t r d a hp).1)
      targets 0 [] [] res pf att (by simp) h
  · intro t r d a hid hp
    rw [(wikiProcessTarget_ids fetch t r d a hp).2, pyOrStr_untruthy t.id _ hid]
  · intro t r d a hid hp
    rw [(ballotProcessTarget_ids get t r d a hp).2, pyOrStr_untruthy t.id _ hid]

end KeyRaces
